import Mathlib

/-! # Plugin provisioning (`tflint --init`): `cmd/init.go`

A shallow embedding of `CLI.init` from `src/cmd/init.go`.

The function is effectful: it calls external collaborators (directory
resolver, config loader, plugin locator, signature checker, installer) and
writes to three sinks (the user-facing output stream, the debug log and the
error formatter).  The embedding passes an abstract world state `W` through
every collaborator call and returns, next to the result, the chronological
list of `Event`s the code performed.
-/

namespace Cmd

/-! ## Data model -/

/-- An error value, represented by its message. `fmt.Errorf("ctx; %w", err)`
is the message of `err` with the context put in front. -/
abbrev Err := String

/-- Modelled from the spec: the exit-status constants are declared outside
`init.go`; the spec fixes "zero when all directories are processed". -/
def ExitCodeOK : Int := 0

/-- Modelled from the spec: "a distinct non-zero code when any directory
fails". -/
def ExitCodeError : Int := 1

/-- Modelled from the spec: the command-line options `init` reads
(`opts.Recursive`, `opts.Config`); the type is declared outside `init.go`. -/
structure Options where
  Recursive : Bool
  Config : String
deriving DecidableEq, Repr

/-- Modelled from the spec: a PluginDeclaration, "name, source identifier,
version constraint (source/version may be absent)". The type `tflint.PluginConfig`
is declared outside `init.go`; an absent string is the empty string. -/
structure PluginConfig where
  Name : String
  Source : String
  Version : String
  SigningKey : String
deriving DecidableEq, Repr

/-- Modelled from the spec: `Configuration{plugins: ordered sequence of
PluginDeclaration}`; `Settings` stands for everything else a loaded
configuration carries (plugin directory and the like). -/
structure Config where
  Settings : String
  Plugins : List PluginConfig
deriving DecidableEq, Repr

/-- Modelled from the spec: the InstallConfig that the install-config factory
builds from a configuration and one declaration. -/
structure InstallConfig where
  globalConfig : Config
  PluginConfig : PluginConfig
deriving DecidableEq, Repr

/-- Modelled from the spec: `build(config, declaration) -> InstallConfig`
(`plugin.NewInstallConfig`, declared outside `init.go`). -/
def NewInstallConfig (cfg : Config) (pluginCfg : PluginConfig) : InstallConfig :=
  { globalConfig := cfg, PluginConfig := pluginCfg }

/-- Modelled from the spec: `isManuallyManaged()`; "source/version unset"
(`init.go` line 47: "If version or source is not set, you need to install it
manually"). -/
def InstallConfig.ManuallyInstalled (c : InstallConfig) : Bool :=
  c.PluginConfig.Version == "" || c.PluginConfig.Source == ""

/-- Outcome of `plugin.FindPluginPath`, seen through the two tests `init`
applies to its error: `os.IsNotExist(err)`, then `err != nil`. -/
inductive FindResult where
  | found (path : String)
  | notExist (e : Err)
  | failed (e : Err)
deriving DecidableEq, Repr

/-- Result of a fallible collaborator, `(value, error)` in the source. -/
inductive Outcome (α : Type) where
  | ok (a : α)
  | error (e : Err)
deriving DecidableEq, Repr

/-- The external collaborators of `init`, each a function of the working
context (the directory `withinChangedDir` switched to) and of the world state.
`FgYellowln s` is the text `color.New(color.FgYellow).Fprintln` writes for `s`. -/
structure Collab (W : Type) where
  findWorkingDirs : Options → W → Outcome (List String) × W
  LoadConfig : String → String → W → Outcome Config × W
  FindPluginPath : String → InstallConfig → W → FindResult × W
  HasSigningKey : String → InstallConfig → W → Bool × W
  Install : String → InstallConfig → W → Outcome String × W
  FgYellowln : String → String

/-- Everything `init` does that is visible from outside, in the order it
happens. -/
inductive Event where
  /-- the call `fmt.Fprint(cli.outStream, s)` (or `Fprintf`, `Fprintln`). -/
  | out (s : String)
  /-- the call `log.Printf("%s%s", ..)`, one line of the debug log. -/
  | debug (line : String)
  /-- the call `cli.formatter.Print(tflint.Issues{}, err, ..)`. -/
  | report (e : Err)
  /-- the call `findWorkingDirs(opts)` and its result. -/
  | resolve (r : Outcome (List String))
  /-- the call `tflint.LoadConfig` in working directory `wd` and its result. -/
  | load (wd : String) (r : Outcome Config)
  /-- the call `plugin.FindPluginPath` for a declaration and its result. -/
  | find (wd : String) (p : PluginConfig) (r : FindResult)
  /-- the call `sigchecker.HasSigningKey()` for a declaration and its result. -/
  | sig (wd : String) (p : PluginConfig) (hasKey : Bool)
  /-- the call `installCfg.Install()` for a declaration and its result. -/
  | install (wd : String) (p : PluginConfig) (r : Outcome String)
deriving DecidableEq, Repr

/-! ## Text -/

/-- Go's `strings.Split(s, sep)` for a one-character separator, on character
lists: the pieces between the separators, `[""]` for the empty string. -/
def splitChars (sep : Char) : List Char → List (List Char)
  | [] => [[]]
  | c :: cs =>
    if c = sep then [] :: splitChars sep cs
    else
      match splitChars sep cs with
      | [] => [[c]]
      | l :: ls => (c :: l) :: ls

/-- The call `strings.Split(s, "\n")` of line 92. -/
def SplitLines (s : String) : List String :=
  (splitChars (Char.ofNat 10) s.data).map String.mk

/-- Line 25. -/
def bannerText : String := "Installing plugins on each working directory...\n\n"

/-- Line 33. -/
def separatorText : String := "====================================================\n"

/-- Line 34: `fmt.Sprintf("working directory: %s\n\n", wd)`. -/
def workingDirText (wd : String) : String := "working directory: " ++ wd ++ "\n\n"

/-- Line 57: `"Installing \"%s\" plugin...\n"`. -/
def installingText (name : String) : String := "Installing \"" ++ name ++ "\" plugin...\n"

/-- Line 61, the text handed to the colour library. -/
def noSigningKeyText : String :=
  "No signing key configured. Set \"signing_key\" to verify that the release is signed by the plugin developer"

/-- Line 69: `"Installed \"%s\" (source: %s, version: %s)\n"`. -/
def installedText (p : PluginConfig) : String :=
  "Installed \"" ++ p.Name ++ "\" (source: " ++ p.Source ++ ", version: " ++ p.Version ++ ")\n"

/-- Lines 79 and 82: `"Plugin \"%s\" is already installed\n"`. -/
def alreadyText (name : String) : String := "Plugin \"" ++ name ++ "\" is already installed\n"

/-- Line 87. -/
def noPluginsText : String := "No plugins to install\n"

/-- Line 91, the local `prefix`. -/
def debugTag : String := "[DEBUG]   "

/-- Line 106. -/
def allInstalledText : String := "All plugins are already installed\n"

/-! ## The code -/

/-- State of the closure of lines 31-99 when it returns: the error it returns
(`none` for `nil`), the captured variables `builder` and `installed`, the local
`found`, the world and the events performed. -/
structure DirResult (W : Type) where
  err : Option Err
  builder : String
  found : Bool
  installed : Bool
  world : W
  events : List Event

/-- Put the events that happened before in front of a result. -/
def DirResult.after {W : Type} (evs : List Event) (r : DirResult W) : DirResult W :=
  { r with events := evs ++ r.events }

/-- The loop over `cfg.Plugins` of lines 44-84, started with the remaining
declarations and the current values of `builder`, `found` and `installed`. -/
def pluginLoop {W : Type} (E : Collab W) (opts : Options) (wd : String) (cfg : Config) :
    List PluginConfig → String → Bool → Bool → W → DirResult W
  | [], builder, found, installed, w =>
    { err := none, builder := builder, found := found, installed := installed,
      world := w, events := [] }
  | pluginCfg :: rest, builder, found, installed, w =>
    let installCfg := NewInstallConfig cfg pluginCfg
    if installCfg.ManuallyInstalled then
      pluginLoop E opts wd cfg rest builder found installed w
    else
      let looked := E.FindPluginPath wd installCfg w
      match looked.1 with
      | FindResult.notExist e =>
        let checked := E.HasSigningKey wd installCfg looked.2
        let res := E.Install wd installCfg checked.2
        let evs :=
          [Event.find wd pluginCfg (FindResult.notExist e),
           Event.out builder,
           Event.out (installingText pluginCfg.Name),
           Event.sig wd pluginCfg checked.1]
          ++ (if checked.1 then [] else [Event.out (E.FgYellowln noSigningKeyText)])
          ++ [Event.install wd pluginCfg res.1]
        match res.1 with
        | Outcome.error ie =>
          { err := some ("Failed to install a plugin; " ++ ie), builder := builder,
            found := true, installed := true, world := res.2, events := evs }
        | Outcome.ok _ =>
          (pluginLoop E opts wd cfg rest builder true true res.2).after
            (evs ++ [Event.out (installedText pluginCfg)])
      | FindResult.failed e =>
        { err := some ("Failed to find a plugin; " ++ e), builder := builder,
          found := true, installed := installed, world := looked.2,
          events := [Event.find wd pluginCfg (FindResult.failed e), Event.out builder] }
      | FindResult.found path =>
        if opts.Recursive then
          (pluginLoop E opts wd cfg rest (builder ++ alreadyText pluginCfg.Name) true installed
            looked.2).after [Event.find wd pluginCfg (FindResult.found path)]
        else
          (pluginLoop E opts wd cfg rest builder true installed looked.2).after
            [Event.find wd pluginCfg (FindResult.found path),
             Event.out (alreadyText pluginCfg.Name)]

/-- The closure passed to `withinChangedDir` (lines 31-99), run in working
directory `wd` with the captured `builder` and `installed`. -/
def initDir {W : Type} (E : Collab W) (opts : Options) (wd : String)
    (builder : String) (installed : Bool) (w : W) : DirResult W :=
  let builder :=
    if opts.Recursive then builder ++ separatorText ++ workingDirText wd else builder
  let loaded := E.LoadConfig wd opts.Config w
  match loaded.1 with
  | Outcome.error e =>
    { err := some ("Failed to load TFLint config; " ++ e), builder := builder,
      found := false, installed := installed, world := loaded.2,
      events := [Event.load wd (Outcome.error e), Event.out builder] }
  | Outcome.ok cfg =>
    let r := pluginLoop E opts wd cfg cfg.Plugins builder false installed loaded.2
    match r.err with
    | some _ => r.after [Event.load wd (Outcome.ok cfg)]
    | none =>
      let builder :=
        if opts.Recursive && !r.found then r.builder ++ noPluginsText else r.builder
      let lines := SplitLines builder
      { err := none, builder := builder, found := r.found, installed := r.installed,
        world := r.world,
        events := [Event.load wd (Outcome.ok cfg)] ++ r.events
          ++ lines.map (fun line => Event.debug (debugTag ++ line)) }

/-- Modelled from the spec: `withContext(dir, fn) -> error` "runs `fn` with
the working context set to `dir`, restores the prior context afterward"
(`cli.withinChangedDir`, declared outside `init.go`). The working context is
the directory argument every collaborator receives, so running `fn` is all
there is to do. -/
def withinChangedDir {W : Type} (_wd : String) (fn : W → DirResult W) (w : W) : DirResult W :=
  fn w

/-- State of `init` when the loop over the working directories (lines 29-104)
is left: the error that made it return early, if any, and the captured
variables. -/
structure LoopResult (W : Type) where
  err : Option Err
  builder : String
  installed : Bool
  world : W
  events : List Event

/-- The loop over `workingDirs` of lines 29-104. -/
def dirLoop {W : Type} (E : Collab W) (opts : Options) :
    List String → String → Bool → W → LoopResult W
  | [], builder, installed, w =>
    { err := none, builder := builder, installed := installed, world := w, events := [] }
  | wd :: rest, _builder, installed, w =>
    let r := withinChangedDir wd (initDir E opts wd "" installed) w
    match r.err with
    | some e =>
      { err := some e, builder := r.builder, installed := r.installed, world := r.world,
        events := r.events ++ [Event.report e] }
    | none =>
      let l := dirLoop E opts rest r.builder r.installed r.world
      { l with events := r.events ++ l.events }

/-- What a run of `init` leaves behind: the exit code, the world and the
events. -/
structure Run (W : Type) where
  code : Int
  world : W
  events : List Event

/-- The method `CLI.init` (lines 15-110). -/
def init {W : Type} (E : Collab W) (opts : Options) (w : W) : Run W :=
  let resolved := E.findWorkingDirs opts w
  match resolved.1 with
  | Outcome.error e =>
    { code := ExitCodeError, world := resolved.2,
      events := [Event.resolve (Outcome.error e),
                 Event.report ("Failed to find workspaces; " ++ e)] }
  | Outcome.ok workingDirs =>
    let banner := if opts.Recursive then [Event.out bannerText] else []
    let l := dirLoop E opts workingDirs "" false resolved.2
    match l.err with
    | some _ =>
      { code := ExitCodeError, world := l.world,
        events := Event.resolve (Outcome.ok workingDirs) :: (banner ++ l.events) }
    | none =>
      { code := ExitCodeOK, world := l.world,
        events := Event.resolve (Outcome.ok workingDirs) :: (banner ++ l.events
          ++ (if opts.Recursive && !l.installed then [Event.out allInstalledText] else [])) }

/-! ## Observations on a run -/

/-- The content of the user-facing output stream: the texts written to it,
one after the other. -/
def userStream : List Event → String
  | [] => ""
  | Event.out s :: evs => s ++ userStream evs
  | _ :: evs => userStream evs

/-- The lines sent to the debug log. -/
def debugLog : List Event → List String
  | [] => []
  | Event.debug l :: evs => l :: debugLog evs
  | _ :: evs => debugLog evs

end Cmd


namespace Cmd

/-- The texts written to the user-facing stream, one per write call. -/
def writes : List Event → List String
  | [] => []
  | Event.out s :: evs => s :: writes evs
  | _ :: evs => writes evs

/-- A collaborator call that returned an error `init` treats as fatal: a
failed directory resolution, a failed config load, a lookup error other than
"not found", a failed installation. -/
def Event.isFailure : Event → Bool
  | Event.resolve (Outcome.error _) => true
  | Event.load _ (Outcome.error _) => true
  | Event.find _ _ (FindResult.failed _) => true
  | Event.install _ _ (Outcome.error _) => true
  | _ => false

/-- The installer invocations of a run: working directory and declaration. -/
def installCalls : List Event → List (String × PluginConfig)
  | [] => []
  | Event.install wd p _ :: evs => (wd, p) :: installCalls evs
  | _ :: evs => installCalls evs

/-- The lookups of a run: working directory, declaration and result. -/
def lookups : List Event → List (String × PluginConfig × FindResult)
  | [] => []
  | Event.find wd p r :: evs => (wd, p, r) :: lookups evs
  | _ :: evs => lookups evs

/-- The lookups of a run that signalled "not found". -/
def notFoundLookups : List Event → List (String × PluginConfig)
  | [] => []
  | Event.find wd p (FindResult.notExist _) :: evs => (wd, p) :: notFoundLookups evs
  | _ :: evs => notFoundLookups evs

/-- The lookups of a run that found the binary. -/
def foundLookups : List Event → List (String × PluginConfig)
  | [] => []
  | Event.find wd p (FindResult.found _) :: evs => (wd, p) :: foundLookups evs
  | _ :: evs => foundLookups evs

/-- Whether a lookup signalled "not found" (`os.IsNotExist(err)`). -/
def FindResult.isNotExist : FindResult → Bool
  | FindResult.notExist _ => true
  | _ => false

/-- Whether a lookup found the binary (`err == nil`). -/
def FindResult.isFound : FindResult → Bool
  | FindResult.found _ => true
  | _ => false

/-- Whether a declaration is manually managed (the test of line 48 depends on
the declaration alone). -/
def PluginConfig.manual (p : PluginConfig) : Bool :=
  (NewInstallConfig { Settings := "", Plugins := [] } p).ManuallyInstalled

/-- The declarations of a configuration that are not manually managed, in
configuration order. -/
def Config.managed (cfg : Config) : List PluginConfig :=
  cfg.Plugins.filter (fun p => !p.manual)

/-- The declarations that are not manually managed of the configurations a run
loaded, in directory order and then configuration order. -/
def declared : List Event → List (String × PluginConfig)
  | [] => []
  | Event.load wd (Outcome.ok cfg) :: evs => cfg.managed.map (fun p => (wd, p)) ++ declared evs
  | _ :: evs => declared evs

/-- The working directories whose configuration a run loaded successfully. -/
def loadedDirs : List Event → List String
  | [] => []
  | Event.load wd (Outcome.ok _) :: evs => wd :: loadedDirs evs
  | _ :: evs => loadedDirs evs

/-- The collaborator calls of a run that concern a plugin: lookups,
signature checks and installations, in order. -/
def pluginCalls : List Event → List Event
  | [] => []
  | Event.find wd p r :: evs => Event.find wd p r :: pluginCalls evs
  | Event.sig wd p b :: evs => Event.sig wd p b :: pluginCalls evs
  | Event.install wd p r :: evs => Event.install wd p r :: pluginCalls evs
  | _ :: evs => pluginCalls evs

/-- The texts of a list, one after the other. -/
def joinText : List String → String
  | [] => ""
  | s :: ss => s ++ joinText ss

/-- The "already installed" lines of the lookups of a run that found the
binary, in order. -/
def alreadyLines (evs : List Event) : List String :=
  (foundLookups evs).map (fun x => alreadyText x.2.Name)

/-- For every lookup of a run that found the binary: the declaration, and the
event that comes right after the lookup (`none` at the end of the run). -/
def nextAfterFound : List Event → List (PluginConfig × Option Event)
  | [] => []
  | Event.find _ p (FindResult.found _) :: evs => (p, evs.head?) :: nextAfterFound evs
  | _ :: evs => nextAfterFound evs

/-! ## What the collaborators say should happen

The properties of the exit status and of the installer invocations are stated
against the collaborators themselves. The three functions below follow the
words of the specification, not the code: they ask the collaborators, in
directory order and then configuration order, and keep only what those
properties speak of, namely which declarations are to be installed and whether
everything succeeded. They know nothing of the report buffer, of the output
stream or of the debug log. -/

/-- Stated from the specification, for the declarations of one configuration: the
declarations that are not manually managed and whose lookup signals "not
found", in configuration order, up to and including the first one whose
installation fails and stopping at the first lookup that fails otherwise; and
the world left behind when every lookup and every installation succeeded
(`none` after a fatal error). The signature check is asked for before an
installation, as its answer may change the world. -/
def specPlugins {W : Type} (E : Collab W) (wd : String) (cfg : Config) :
    List PluginConfig → W → List (String × PluginConfig) × Option W
  | [], w => ([], some w)
  | p :: ps, w =>
    if (NewInstallConfig cfg p).ManuallyInstalled then specPlugins E wd cfg ps w
    else
      match (E.FindPluginPath wd (NewInstallConfig cfg p) w).1 with
      | FindResult.found _ =>
        specPlugins E wd cfg ps (E.FindPluginPath wd (NewInstallConfig cfg p) w).2
      | FindResult.failed _ => ([], none)
      | FindResult.notExist _ =>
        match (E.Install wd (NewInstallConfig cfg p)
            (E.HasSigningKey wd (NewInstallConfig cfg p)
              (E.FindPluginPath wd (NewInstallConfig cfg p) w).2).2).1 with
        | Outcome.error _ => ([(wd, p)], none)
        | Outcome.ok _ =>
          ((wd, p) :: (specPlugins E wd cfg ps
              (E.Install wd (NewInstallConfig cfg p)
                (E.HasSigningKey wd (NewInstallConfig cfg p)
                  (E.FindPluginPath wd (NewInstallConfig cfg p) w).2).2).2).1,
           (specPlugins E wd cfg ps
              (E.Install wd (NewInstallConfig cfg p)
                (E.HasSigningKey wd (NewInstallConfig cfg p)
                  (E.FindPluginPath wd (NewInstallConfig cfg p) w).2).2).2).2)

/-- Stated from the specification, for a list of working directories: the
declarations to install, directory after directory, up to the first fatal
error (a config load that fails, or a fatal error among the declarations of a
directory); and the world left behind when everything succeeded. -/
def specDirs {W : Type} (E : Collab W) (opts : Options) :
    List String → W → List (String × PluginConfig) × Option W
  | [], w => ([], some w)
  | wd :: rest, w =>
    match (E.LoadConfig wd opts.Config w).1 with
    | Outcome.error _ => ([], none)
    | Outcome.ok cfg =>
      match (specPlugins E wd cfg cfg.Plugins (E.LoadConfig wd opts.Config w).2).2 with
      | none => ((specPlugins E wd cfg cfg.Plugins (E.LoadConfig wd opts.Config w).2).1, none)
      | some w2 =>
        ((specPlugins E wd cfg cfg.Plugins (E.LoadConfig wd opts.Config w).2).1
            ++ (specDirs E opts rest w2).1,
         (specDirs E opts rest w2).2)

/-- Stated from the specification, for a whole run: the installer invocations that
are due, and the final world when the directory resolver succeeds and, for
every working directory, the config load succeeds, no lookup returns an error
other than "not found" and every installation succeeds (`none` otherwise). -/
def specRun {W : Type} (E : Collab W) (opts : Options) (w : W) :
    List (String × PluginConfig) × Option W :=
  match (E.findWorkingDirs opts w).1 with
  | Outcome.error _ => ([], none)
  | Outcome.ok dirs => specDirs E opts dirs (E.findWorkingDirs opts w).2

/-! ## Deleting the manually managed declarations -/

/-- A configuration without its manually managed declarations. -/
def Config.dropManual (cfg : Config) : Config :=
  { cfg with Plugins := cfg.Plugins.filter (fun p => !p.manual) }

/-- The result of a config load without the manually managed declarations. -/
def dropManualLoaded {W : Type} : Outcome Config × W → Outcome Config × W
  | (Outcome.ok cfg, w) => (Outcome.ok cfg.dropManual, w)
  | (Outcome.error e, w) => (Outcome.error e, w)

/-- The same collaborators, reading configurations from which the manually
managed declarations have been deleted. -/
def Collab.dropManual {W : Type} (E : Collab W) : Collab W :=
  { E with LoadConfig := fun wd path w => dropManualLoaded (E.LoadConfig wd path w) }

/-- An event of a run, as it reads when the manually managed declarations are
deleted from the configurations: only the result recorded for a config load
changes. -/
def Event.dropManual : Event → Event
  | Event.load wd (Outcome.ok cfg) => Event.load wd (Outcome.ok cfg.dropManual)
  | e => e

/-- The plugin locator, the signature checker and the installer read, of the
global configuration inside an install config, only the settings and not the
list of declarations. -/
def Collab.IgnoresDeclarations {W : Type} (E : Collab W) : Prop :=
  ∀ (wd : String) (c c' : Config) (p : PluginConfig) (w : W), c.Settings = c'.Settings →
    E.FindPluginPath wd (NewInstallConfig c p) w = E.FindPluginPath wd (NewInstallConfig c' p) w
    ∧ E.HasSigningKey wd (NewInstallConfig c p) w = E.HasSigningKey wd (NewInstallConfig c' p) w
    ∧ E.Install wd (NewInstallConfig c p) w = E.Install wd (NewInstallConfig c' p) w

/-! ## A concrete world -/

/-- A small concrete set of collaborators. The world is the list of the names
of the plugin binaries on disk. The resolver returns `dirs`; a directory has
the configuration `cfgs` gives it and fails to load when it has none; a lookup
finds a plugin whose name is on disk, fails for the plugin called `"broken"`
and signals "not found" otherwise; a signing key is configured when the
declaration carries one; installing from the source `"bad/source"` fails and
any other installation puts the binary on disk. -/
def diskCollab (dirs : List String) (cfgs : List (String × Config)) : Collab (List String) where
  findWorkingDirs := fun _ w => (Outcome.ok dirs, w)
  LoadConfig := fun wd _ w =>
    match cfgs.lookup wd with
    | some cfg => (Outcome.ok cfg, w)
    | none => (Outcome.error "no config", w)
  FindPluginPath := fun _ ic w =>
    if w.contains ic.PluginConfig.Name then (FindResult.found ic.PluginConfig.Name, w)
    else if ic.PluginConfig.Name == "broken" then (FindResult.failed "permission denied", w)
    else (FindResult.notExist "file does not exist", w)
  HasSigningKey := fun _ ic w => (ic.PluginConfig.SigningKey != "", w)
  Install := fun _ ic w =>
    if ic.PluginConfig.Source == "bad/source" then (Outcome.error "download failed", w)
    else (Outcome.ok ic.PluginConfig.Name, ic.PluginConfig.Name :: w)
  FgYellowln := fun s => s ++ "\n"

/-- The declaration of the `aws` plugin used in the scenarios. -/
def awsPlugin : PluginConfig :=
  { Name := "aws", Source := "x/y", Version := "0.1.0", SigningKey := "" }

/-- A second managed declaration. -/
def gcpPlugin : PluginConfig :=
  { Name := "google", Source := "x/z", Version := "0.2.0", SigningKey := "" }

/-- A third managed declaration. -/
def azurePlugin : PluginConfig :=
  { Name := "azurerm", Source := "x/w", Version := "0.3.0", SigningKey := "" }

/-- A manually managed declaration: neither source nor version. -/
def localPlugin : PluginConfig :=
  { Name := "local", Source := "", Version := "", SigningKey := "" }

/-- A declaration whose lookup fails in `diskCollab`. -/
def brokenPlugin : PluginConfig :=
  { Name := "broken", Source := "x/b", Version := "1.0.0", SigningKey := "" }

/-- Single-directory mode. -/
def singleOpts : Options := { Recursive := false, Config := "" }

/-- Multi-directory (recursive) mode. -/
def recursiveOpts : Options := { Recursive := true, Config := "" }

/-- Two working directories, the first declaring the `aws` plugin and a
manually managed one, the second declaring nothing. -/
def twoDirs : Collab (List String) :=
  diskCollab ["a", "b"]
    [("a", { Settings := "", Plugins := [awsPlugin, localPlugin] }),
     ("b", { Settings := "", Plugins := [] })]

/-- Two working directories, the first declaring only the `aws` plugin, the
second declaring nothing. -/
def twoDirsPlain : Collab (List String) :=
  diskCollab ["a", "b"]
    [("a", { Settings := "", Plugins := [awsPlugin] }),
     ("b", { Settings := "", Plugins := [] })]

/-- One working directory declaring the `aws` plugin. -/
def oneDir : Collab (List String) :=
  diskCollab ["."] [(".", { Settings := "", Plugins := [awsPlugin] })]

/-- A declaration whose installation fails in `diskCollab`. -/
def badSourcePlugin : PluginConfig :=
  { Name := "bad", Source := "bad/source", Version := "1.0.0", SigningKey := "" }

/-- One working directory declaring a plugin whose lookup fails. -/
def oneDirBroken : Collab (List String) :=
  diskCollab ["."] [(".", { Settings := "", Plugins := [brokenPlugin] })]

/-- Two working directories: the first declares a plugin already on disk, a
manually managed one, a plugin whose installation fails and one more managed
plugin; the second declares the `google` plugin again. -/
def twoDirsBadSource : Collab (List String) :=
  diskCollab ["a", "b"]
    [("a", { Settings := "", Plugins := [awsPlugin, localPlugin, badSourcePlugin, gcpPlugin] }),
     ("b", { Settings := "", Plugins := [gcpPlugin] })]

/-- Two working directories: the first declares a plugin already on disk, a
manually managed one and two plugins to install; the second declares one of
them again and one more. -/
def twoDirsInstall : Collab (List String) :=
  diskCollab ["a", "b"]
    [("a", { Settings := "", Plugins := [awsPlugin, localPlugin, gcpPlugin, azurePlugin] }),
     ("b", { Settings := "", Plugins := [gcpPlugin, awsPlugin] })]

/-- A directory list whose second directory has no configuration to load. -/
def missingConfig : Collab (List String) :=
  diskCollab ["a", "nowhere", "b"]
    [("a", { Settings := "", Plugins := [gcpPlugin] }),
     ("b", { Settings := "", Plugins := [azurePlugin] })]

/-- One working directory declaring three managed plugins. -/
def oneDirThree : Collab (List String) :=
  diskCollab ["a"] [("a", { Settings := "", Plugins := [awsPlugin, gcpPlugin, azurePlugin] })]

end Cmd

/-! # Theorems -/

namespace Cmd

section Basic

variable {W : Type}

@[simp] theorem after_err (evs : List Event) (r : DirResult W) : (r.after evs).err = r.err := rfl
@[simp] theorem after_builder (evs : List Event) (r : DirResult W) :
    (r.after evs).builder = r.builder := rfl
@[simp] theorem after_found (evs : List Event) (r : DirResult W) :
    (r.after evs).found = r.found := rfl
@[simp] theorem after_installed (evs : List Event) (r : DirResult W) :
    (r.after evs).installed = r.installed := rfl
@[simp] theorem after_world (evs : List Event) (r : DirResult W) :
    (r.after evs).world = r.world := rfl
@[simp] theorem after_events (evs : List Event) (r : DirResult W) :
    (r.after evs).events = evs ++ r.events := rfl

theorem userStream_append (a b : List Event) :
    userStream (a ++ b) = userStream a ++ userStream b := by
  induction a with
  | nil => simp [userStream]
  | cons e a ih => cases e <;> simp [userStream, ih, String.append_assoc]

theorem debugLog_append (a b : List Event) : debugLog (a ++ b) = debugLog a ++ debugLog b := by
  induction a with
  | nil => simp [debugLog]
  | cons e a ih => cases e <;> simp [debugLog, ih]

theorem writes_append (a b : List Event) : writes (a ++ b) = writes a ++ writes b := by
  induction a with
  | nil => simp [writes]
  | cons e a ih => cases e <;> simp [writes, ih]

theorem installCalls_append (a b : List Event) :
    installCalls (a ++ b) = installCalls a ++ installCalls b := by
  induction a with
  | nil => simp [installCalls]
  | cons e a ih => cases e <;> simp [installCalls, ih]

theorem lookups_append (a b : List Event) : lookups (a ++ b) = lookups a ++ lookups b := by
  induction a with
  | nil => simp [lookups]
  | cons e a ih => cases e <;> simp [lookups, ih]

theorem notFoundLookups_append (a b : List Event) :
    notFoundLookups (a ++ b) = notFoundLookups a ++ notFoundLookups b := by
  induction a with
  | nil => simp [notFoundLookups]
  | cons e a ih =>
    cases e with
    | find wd p r => cases r <;> simp [notFoundLookups, ih]
    | _ => simp [notFoundLookups, ih]

theorem foundLookups_append (a b : List Event) :
    foundLookups (a ++ b) = foundLookups a ++ foundLookups b := by
  induction a with
  | nil => simp [foundLookups]
  | cons e a ih =>
    cases e with
    | find wd p r => cases r <;> simp [foundLookups, ih]
    | _ => simp [foundLookups, ih]

theorem declared_append (a b : List Event) : declared (a ++ b) = declared a ++ declared b := by
  induction a with
  | nil => simp [declared]
  | cons e a ih =>
    cases e with
    | load wd r => cases r <;> simp [declared, ih]
    | _ => simp [declared, ih]

theorem loadedDirs_append (a b : List Event) :
    loadedDirs (a ++ b) = loadedDirs a ++ loadedDirs b := by
  induction a with
  | nil => simp [loadedDirs]
  | cons e a ih =>
    cases e with
    | load wd r => cases r <;> simp [loadedDirs, ih]
    | _ => simp [loadedDirs, ih]

theorem pluginCalls_append (a b : List Event) :
    pluginCalls (a ++ b) = pluginCalls a ++ pluginCalls b := by
  induction a with
  | nil => simp [pluginCalls]
  | cons e a ih => cases e <;> simp [pluginCalls, ih]

theorem manual_eq (cfg : Config) (p : PluginConfig) :
    (NewInstallConfig cfg p).ManuallyInstalled = p.manual := rfl

end Basic

section Failure

variable {W : Type}

/-- The plugin loop returns an error exactly when one of its collaborator
calls failed. -/
theorem pluginLoop_err (E : Collab W) (opts : Options) (wd : String) (cfg : Config)
    (ps : List PluginConfig) (b : String) (f i : Bool) (w : W) :
    (pluginLoop E opts wd cfg ps b f i w).err.isSome
      = (pluginLoop E opts wd cfg ps b f i w).events.any Event.isFailure := by
  induction ps generalizing b f i w with
  | nil => simp [pluginLoop]
  | cons p ps ih =>
    simp only [pluginLoop]
    split
    · exact ih ..
    · split
      · split
        · next h => cases hk : (E.HasSigningKey wd (NewInstallConfig cfg p) (E.FindPluginPath wd (NewInstallConfig cfg p) w).2).1 <;> simp [Event.isFailure, h, hk]
        · next h =>
            cases hk : (E.HasSigningKey wd (NewInstallConfig cfg p) (E.FindPluginPath wd (NewInstallConfig cfg p) w).2).1 <;>
              simp [Event.isFailure, h, hk, ih]
      · simp [Event.isFailure]
      · split <;> simp [Event.isFailure, ih]

end Failure

section LoopInduction

variable {W : Type}

/-- Case analysis and induction along the plugin loop: one case per path
through the loop body (lines 44-84). -/
theorem pluginLoop_induct (E : Collab W) (opts : Options) (wd : String) (cfg : Config)
    (motive : List PluginConfig → String → Bool → Bool → W → DirResult W → Prop)
    (h_nil : ∀ b f i w,
      motive [] b f i w
        { err := none, builder := b, found := f, installed := i, world := w, events := [] })
    (h_manual : ∀ p ps b f i w r, p.manual = true →
      motive ps b f i w r → motive (p :: ps) b f i w r)
    (h_failed : ∀ p ps b f i w e, p.manual = false →
      (E.FindPluginPath wd (NewInstallConfig cfg p) w).1 = FindResult.failed e →
      motive (p :: ps) b f i w
        { err := some ("Failed to find a plugin; " ++ e), builder := b, found := true,
          installed := i, world := (E.FindPluginPath wd (NewInstallConfig cfg p) w).2,
          events := [Event.find wd p (FindResult.failed e), Event.out b] })
    (h_found_rec : ∀ p ps b f i w path r, p.manual = false →
      (E.FindPluginPath wd (NewInstallConfig cfg p) w).1 = FindResult.found path →
      opts.Recursive = true →
      motive ps (b ++ alreadyText p.Name) true i
        (E.FindPluginPath wd (NewInstallConfig cfg p) w).2 r →
      motive (p :: ps) b f i w (r.after [Event.find wd p (FindResult.found path)]))
    (h_found_single : ∀ p ps b f i w path r, p.manual = false →
      (E.FindPluginPath wd (NewInstallConfig cfg p) w).1 = FindResult.found path →
      opts.Recursive = false →
      motive ps b true i (E.FindPluginPath wd (NewInstallConfig cfg p) w).2 r →
      motive (p :: ps) b f i w
        (r.after [Event.find wd p (FindResult.found path), Event.out (alreadyText p.Name)]))
    (h_install_err : ∀ p ps b f i w e hasKey w2 ie w3, p.manual = false →
      (E.FindPluginPath wd (NewInstallConfig cfg p) w).1 = FindResult.notExist e →
      E.HasSigningKey wd (NewInstallConfig cfg p)
        (E.FindPluginPath wd (NewInstallConfig cfg p) w).2 = (hasKey, w2) →
      E.Install wd (NewInstallConfig cfg p) w2 = (Outcome.error ie, w3) →
      motive (p :: ps) b f i w
        { err := some ("Failed to install a plugin; " ++ ie), builder := b, found := true,
          installed := true, world := w3,
          events := [Event.find wd p (FindResult.notExist e), Event.out b,
              Event.out (installingText p.Name), Event.sig wd p hasKey]
            ++ (if hasKey then [] else [Event.out (E.FgYellowln noSigningKeyText)])
            ++ [Event.install wd p (Outcome.error ie)] })
    (h_install_ok : ∀ p ps b f i w e hasKey w2 path w3 r, p.manual = false →
      (E.FindPluginPath wd (NewInstallConfig cfg p) w).1 = FindResult.notExist e →
      E.HasSigningKey wd (NewInstallConfig cfg p)
        (E.FindPluginPath wd (NewInstallConfig cfg p) w).2 = (hasKey, w2) →
      E.Install wd (NewInstallConfig cfg p) w2 = (Outcome.ok path, w3) →
      motive ps b true true w3 r →
      motive (p :: ps) b f i w
        (r.after ([Event.find wd p (FindResult.notExist e), Event.out b,
              Event.out (installingText p.Name), Event.sig wd p hasKey]
            ++ (if hasKey then [] else [Event.out (E.FgYellowln noSigningKeyText)])
            ++ [Event.install wd p (Outcome.ok path)]
            ++ [Event.out (installedText p)])))
    (ps : List PluginConfig) (b : String) (f i : Bool) (w : W) :
    motive ps b f i w (pluginLoop E opts wd cfg ps b f i w) := by
  induction ps generalizing b f i w with
  | nil => exact h_nil b f i w
  | cons p ps ih =>
    simp only [pluginLoop]
    split
    · next hm => exact h_manual p ps b f i w _ hm (ih ..)
    · next hm =>
      have hm' : p.manual = false := by simpa [manual_eq] using hm
      split
      · next e he =>
        split
        · next ie hie =>
          rw [hie]
          exact h_install_err p ps b f i w e _ _ ie _ hm' he rfl (Prod.ext hie rfl)
        · next path hie =>
          rw [hie]
          exact h_install_ok p ps b f i w e _ _ path _ _ hm' he rfl (Prod.ext hie rfl) (ih ..)
      · next e he => exact h_failed p ps b f i w e hm' he
      · next path he =>
        split
        · next hr => exact h_found_rec p ps b f i w path _ hm' he hr (ih ..)
        · next hr =>
          exact h_found_single p ps b f i w path _ hm' he (by simpa using hr) (ih ..)

end LoopInduction

section PluginLoop

variable {W : Type}

theorem joinText_append (a b : List String) : joinText (a ++ b) = joinText a ++ joinText b := by
  induction a with
  | nil => simp [joinText]
  | cons s a ih => simp [joinText, ih, String.append_assoc]

/-- Every "not found" lookup of the plugin loop is followed by one installer
call for the same declaration, and there is no other installer call. -/
theorem pluginLoop_installCalls (E : Collab W) (opts : Options) (wd : String) (cfg : Config)
    (ps : List PluginConfig) (b : String) (f i : Bool) (w : W) :
    installCalls (pluginLoop E opts wd cfg ps b f i w).events
      = notFoundLookups (pluginLoop E opts wd cfg ps b f i w).events := by
  refine pluginLoop_induct E opts wd cfg
    (fun _ _ _ _ _ r => installCalls r.events = notFoundLookups r.events)
    ?_ ?_ ?_ ?_ ?_ ?_ ?_ ps b f i w
  · intros; rfl
  · intros; assumption
  · intros; rfl
  · intro p ps b f i w path r _ _ _ ih
    simpa [installCalls, notFoundLookups] using ih
  · intro p ps b f i w path r _ _ _ ih
    simpa [installCalls, notFoundLookups] using ih
  · intro p ps b f i w e hasKey w2 ie w3 _ _ _ _
    cases hasKey <;> simp [installCalls, notFoundLookups]
  · intro p ps b f i w e hasKey w2 path w3 r _ _ _ _ ih
    cases hasKey <;> simp [installCalls, notFoundLookups, ih]

/-- The plugin loop looks up only declarations that are not manually managed,
and does so in the working directory it runs in. -/
theorem pluginLoop_lookups_managed (E : Collab W) (opts : Options) (wd : String) (cfg : Config)
    (ps : List PluginConfig) (b : String) (f i : Bool) (w : W) :
    ∀ x ∈ lookups (pluginLoop E opts wd cfg ps b f i w).events,
      x.1 = wd ∧ x.2.1.manual = false := by
  refine pluginLoop_induct E opts wd cfg
    (fun _ _ _ _ _ r => ∀ x ∈ lookups r.events, x.1 = wd ∧ x.2.1.manual = false)
    ?_ ?_ ?_ ?_ ?_ ?_ ?_ ps b f i w
  · intros; simp [lookups]
  · intro p ps b f i w r _ ih
    exact ih
  · intro p ps b f i w e hm _
    simp [lookups, hm]
  · intro p ps b f i w path r hm _ _ ih
    simpa [lookups, hm] using ih
  · intro p ps b f i w path r hm _ _ ih
    simpa [lookups, hm] using ih
  · intro p ps b f i w e hasKey w2 ie w3 hm _ _ _
    cases hasKey <;> simp [lookups, hm]
  · intro p ps b f i w e hasKey w2 path w3 r hm _ _ _ ih
    cases hasKey <;> simpa [lookups, lookups_append, hm] using ih

/-- The lookups of the plugin loop are, in configuration order, the
declarations that are not manually managed, up to the first fatal error. -/
theorem pluginLoop_lookups_initial (E : Collab W) (opts : Options) (wd : String) (cfg : Config)
    (ps : List PluginConfig) (b : String) (f i : Bool) (w : W) :
    (lookups (pluginLoop E opts wd cfg ps b f i w).events).map (fun x => (x.1, x.2.1))
        <+: (ps.filter (fun p => !p.manual)).map (fun p => (wd, p))
    ∧ ((pluginLoop E opts wd cfg ps b f i w).err = none →
      (lookups (pluginLoop E opts wd cfg ps b f i w).events).map (fun x => (x.1, x.2.1))
        = (ps.filter (fun p => !p.manual)).map (fun p => (wd, p))) := by
  refine pluginLoop_induct E opts wd cfg
    (fun ps _ _ _ _ r =>
      (lookups r.events).map (fun x => (x.1, x.2.1))
          <+: (ps.filter (fun p => !p.manual)).map (fun p => (wd, p))
      ∧ (r.err = none → (lookups r.events).map (fun x => (x.1, x.2.1))
          = (ps.filter (fun p => !p.manual)).map (fun p => (wd, p))))
    ?_ ?_ ?_ ?_ ?_ ?_ ?_ ps b f i w
  · intros; simp [lookups]
  · intro p ps b f i w r hm ih
    simpa [hm] using ih
  · intro p ps b f i w e hm _
    simp [lookups, hm, List.prefix_cons_inj, List.nil_prefix]
  · intro p ps b f i w path r hm _ _ ih
    simpa [lookups, hm, List.prefix_cons_inj] using ih
  · intro p ps b f i w path r hm _ _ ih
    simpa [lookups, hm, List.prefix_cons_inj] using ih
  · intro p ps b f i w e hasKey w2 ie w3 hm _ _ _
    cases hasKey <;> simp [lookups, hm, List.prefix_cons_inj, List.nil_prefix]
  · intro p ps b f i w e hasKey w2 path w3 r hm _ _ _ ih
    cases hasKey <;> simpa [lookups, lookups_append, hm, List.prefix_cons_inj] using ih

/-- In single-directory mode the plugin loop never touches the builder. -/
theorem pluginLoop_builder_single (E : Collab W) (opts : Options) (wd : String) (cfg : Config)
    (hs : opts.Recursive = false) (ps : List PluginConfig) (b : String) (f i : Bool) (w : W) :
    (pluginLoop E opts wd cfg ps b f i w).builder = b := by
  refine pluginLoop_induct E opts wd cfg (fun _ b _ _ _ r => r.builder = b)
    ?_ ?_ ?_ ?_ ?_ ?_ ?_ ps b f i w
  · intros; rfl
  · intros; assumption
  · intros; rfl
  · intro p ps b f i w path r _ _ hr _
    simp [hs] at hr
  · intro p ps b f i w path r _ _ _ ih
    simpa using ih
  · intros; rfl
  · intro p ps b f i w e hasKey w2 path w3 r _ _ _ _ ih
    simpa using ih

/-- In multi-directory mode the plugin loop appends to the builder one
"already installed" line per lookup that found the binary, and nothing else. -/
theorem pluginLoop_builder_rec (E : Collab W) (opts : Options) (wd : String) (cfg : Config)
    (hr : opts.Recursive = true) (ps : List PluginConfig) (b : String) (f i : Bool) (w : W) :
    (pluginLoop E opts wd cfg ps b f i w).builder
      = b ++ joinText (alreadyLines (pluginLoop E opts wd cfg ps b f i w).events) := by
  refine pluginLoop_induct E opts wd cfg
    (fun _ b _ _ _ r => r.builder = b ++ joinText (alreadyLines r.events))
    ?_ ?_ ?_ ?_ ?_ ?_ ?_ ps b f i w
  · intros; simp [alreadyLines, foundLookups, joinText]
  · intros; assumption
  · intros; simp [alreadyLines, foundLookups, joinText]
  · intro p ps b f i w path r _ _ _ ih
    simpa [alreadyLines, foundLookups, joinText, String.append_assoc] using ih
  · intro p ps b f i w path r _ _ hs _
    simp [hr] at hs
  · intro p ps b f i w e hasKey w2 ie w3 _ _ _ _
    cases hasKey <;> simp [alreadyLines, foundLookups, joinText]
  · intro p ps b f i w e hasKey w2 path w3 r _ _ _ _ ih
    cases hasKey <;> simpa [alreadyLines, foundLookups, foundLookups_append, joinText] using ih

/-- The local `found` is set exactly when a lookup was made. -/
theorem pluginLoop_found (E : Collab W) (opts : Options) (wd : String) (cfg : Config)
    (ps : List PluginConfig) (b : String) (f i : Bool) (w : W) :
    (pluginLoop E opts wd cfg ps b f i w).found
      = (f || !(lookups (pluginLoop E opts wd cfg ps b f i w).events).isEmpty) := by
  refine pluginLoop_induct E opts wd cfg
    (fun _ _ f _ _ r => r.found = (f || !(lookups r.events).isEmpty))
    ?_ ?_ ?_ ?_ ?_ ?_ ?_ ps b f i w
  · intros; simp [lookups]
  · intros; assumption
  · intros; simp [lookups]
  · intro p ps b f i w path r _ _ _ ih
    simp [lookups, ih]
  · intro p ps b f i w path r _ _ _ ih
    simp [lookups, ih]
  · intro p ps b f i w e hasKey w2 ie w3 _ _ _ _
    cases hasKey <;> simp [lookups]
  · intro p ps b f i w e hasKey w2 path w3 r _ _ _ _ ih
    cases hasKey <;> simp [lookups, ih]

/-- The captured `installed` is set exactly when the installer was called. -/
theorem pluginLoop_installed (E : Collab W) (opts : Options) (wd : String) (cfg : Config)
    (ps : List PluginConfig) (b : String) (f i : Bool) (w : W) :
    (pluginLoop E opts wd cfg ps b f i w).installed
      = (i || !(installCalls (pluginLoop E opts wd cfg ps b f i w).events).isEmpty) := by
  refine pluginLoop_induct E opts wd cfg
    (fun _ _ _ i _ r => r.installed = (i || !(installCalls r.events).isEmpty))
    ?_ ?_ ?_ ?_ ?_ ?_ ?_ ps b f i w
  · intros; simp [installCalls]
  · intros; assumption
  · intros; simp [installCalls]
  · intro p ps b f i w path r _ _ _ ih
    simpa [installCalls] using ih
  · intro p ps b f i w path r _ _ _ ih
    simpa [installCalls] using ih
  · intro p ps b f i w e hasKey w2 ie w3 _ _ _ _
    cases hasKey <;> simp [installCalls]
  · intro p ps b f i w e hasKey w2 path w3 r _ _ _ _ ih
    cases hasKey <;> simp [installCalls, ih]

/-- The plugin loop loads no configuration and writes nothing to the debug
log. -/
theorem pluginLoop_no_load (E : Collab W) (opts : Options) (wd : String) (cfg : Config)
    (ps : List PluginConfig) (b : String) (f i : Bool) (w : W) :
    declared (pluginLoop E opts wd cfg ps b f i w).events = []
    ∧ loadedDirs (pluginLoop E opts wd cfg ps b f i w).events = []
    ∧ debugLog (pluginLoop E opts wd cfg ps b f i w).events = [] := by
  refine pluginLoop_induct E opts wd cfg
    (fun _ _ _ _ _ r => declared r.events = [] ∧ loadedDirs r.events = [] ∧ debugLog r.events = [])
    ?_ ?_ ?_ ?_ ?_ ?_ ?_ ps b f i w
  · intros; simp [declared, loadedDirs, debugLog]
  · intros; assumption
  · intros; simp [declared, loadedDirs, debugLog]
  · intro p ps b f i w path r _ _ _ ih
    simpa [declared, loadedDirs, debugLog] using ih
  · intro p ps b f i w path r _ _ _ ih
    simpa [declared, loadedDirs, debugLog] using ih
  · intro p ps b f i w e hasKey w2 ie w3 _ _ _ _
    cases hasKey <;> simp [declared, loadedDirs, debugLog]
  · intro p ps b f i w e hasKey w2 path w3 r _ _ _ _ ih
    cases hasKey <;>
      simpa [declared, loadedDirs, debugLog, declared_append, loadedDirs_append,
        debugLog_append] using ih

end PluginLoop

section Levels

variable {W : Type}

theorem debug_events_any (f : String → String) (l : List String) :
    (l.map (fun line => Event.debug (f line))).any Event.isFailure = false := by
  induction l with
  | nil => rfl
  | cons a l ih => simp [Event.isFailure]

theorem debug_events_installCalls (f : String → String) (l : List String) :
    installCalls (l.map (fun line => Event.debug (f line))) = [] := by
  induction l with
  | nil => rfl
  | cons a l ih => simpa [installCalls] using ih

theorem debug_events_lookups (f : String → String) (l : List String) :
    lookups (l.map (fun line => Event.debug (f line))) = [] := by
  induction l with
  | nil => rfl
  | cons a l ih => simpa [lookups] using ih

theorem debug_events_notFoundLookups (f : String → String) (l : List String) :
    notFoundLookups (l.map (fun line => Event.debug (f line))) = [] := by
  induction l with
  | nil => rfl
  | cons a l ih => simpa [notFoundLookups] using ih

theorem debug_events_foundLookups (f : String → String) (l : List String) :
    foundLookups (l.map (fun line => Event.debug (f line))) = [] := by
  induction l with
  | nil => rfl
  | cons a l ih => simpa [foundLookups] using ih

theorem debug_events_declared (f : String → String) (l : List String) :
    declared (l.map (fun line => Event.debug (f line))) = [] := by
  induction l with
  | nil => rfl
  | cons a l ih => simpa [declared] using ih

theorem debug_events_loadedDirs (f : String → String) (l : List String) :
    loadedDirs (l.map (fun line => Event.debug (f line))) = [] := by
  induction l with
  | nil => rfl
  | cons a l ih => simpa [loadedDirs] using ih

theorem debug_events_writes (f : String → String) (l : List String) :
    writes (l.map (fun line => Event.debug (f line))) = [] := by
  induction l with
  | nil => rfl
  | cons a l ih => simpa [writes] using ih

theorem debug_events_userStream (f : String → String) (l : List String) :
    userStream (l.map (fun line => Event.debug (f line))) = "" := by
  induction l with
  | nil => rfl
  | cons a l ih => simpa [userStream] using ih

theorem debug_events_pluginCalls (f : String → String) (l : List String) :
    pluginCalls (l.map (fun line => Event.debug (f line))) = [] := by
  induction l with
  | nil => rfl
  | cons a l ih => simpa [pluginCalls] using ih

theorem debug_events_debugLog (f : String → String) (l : List String) :
    debugLog (l.map (fun line => Event.debug (f line))) = l.map f := by
  induction l with
  | nil => rfl
  | cons a l ih => simpa [debugLog] using ih

/-- The three ways the closure of lines 31-99 ends. -/
theorem initDir_cases (E : Collab W) (opts : Options) (wd b : String) (i : Bool) (w : W)
    (motive : DirResult W → Prop)
    (h_load : ∀ e, (E.LoadConfig wd opts.Config w).1 = Outcome.error e →
      motive
        { err := some ("Failed to load TFLint config; " ++ e),
          builder := if opts.Recursive then b ++ separatorText ++ workingDirText wd else b,
          found := false, installed := i, world := (E.LoadConfig wd opts.Config w).2,
          events := [Event.load wd (Outcome.error e),
            Event.out (if opts.Recursive then b ++ separatorText ++ workingDirText wd else b)] })
    (h_plugin : ∀ cfg e, (E.LoadConfig wd opts.Config w).1 = Outcome.ok cfg →
      (pluginLoop E opts wd cfg cfg.Plugins
        (if opts.Recursive then b ++ separatorText ++ workingDirText wd else b) false i
        (E.LoadConfig wd opts.Config w).2).err = some e →
      motive ((pluginLoop E opts wd cfg cfg.Plugins
        (if opts.Recursive then b ++ separatorText ++ workingDirText wd else b) false i
        (E.LoadConfig wd opts.Config w).2).after [Event.load wd (Outcome.ok cfg)]))
    (h_ok : ∀ cfg r, (E.LoadConfig wd opts.Config w).1 = Outcome.ok cfg →
      r = pluginLoop E opts wd cfg cfg.Plugins
        (if opts.Recursive then b ++ separatorText ++ workingDirText wd else b) false i
        (E.LoadConfig wd opts.Config w).2 →
      r.err = none →
      motive
        { err := none,
          builder := if opts.Recursive && !r.found then r.builder ++ noPluginsText else r.builder,
          found := r.found, installed := r.installed, world := r.world,
          events := [Event.load wd (Outcome.ok cfg)] ++ r.events
            ++ (SplitLines
                (if opts.Recursive && !r.found then r.builder ++ noPluginsText
                  else r.builder)).map (fun line => Event.debug (debugTag ++ line)) }) :
    motive (initDir E opts wd b i w) := by
  simp only [initDir]
  split
  · next e he => exact h_load e he
  · next cfg he =>
    split
    · next e hpe => exact h_plugin cfg e he hpe
    · next hpe => exact h_ok cfg _ he rfl hpe

/-- The closure returns an error exactly when one of its collaborator calls
failed. -/
theorem initDir_err (E : Collab W) (opts : Options) (wd b : String) (i : Bool) (w : W) :
    (initDir E opts wd b i w).err.isSome = (initDir E opts wd b i w).events.any Event.isFailure := by
  refine initDir_cases E opts wd b i w (fun r => r.err.isSome = r.events.any Event.isFailure)
    ?_ ?_ ?_
  · intro e _
    simp [Event.isFailure]
  · intro cfg e _ hpe
    have h := pluginLoop_err E opts wd cfg cfg.Plugins
      (if opts.Recursive then b ++ separatorText ++ workingDirText wd else b) false i
      (E.LoadConfig wd opts.Config w).2
    simpa [Event.isFailure] using h
  · intro cfg r _ hr hpe
    have h := pluginLoop_err E opts wd cfg cfg.Plugins
      (if opts.Recursive then b ++ separatorText ++ workingDirText wd else b) false i
      (E.LoadConfig wd opts.Config w).2
    rw [← hr, hpe] at h
    simp only [List.any_append, debug_events_any, ← h]
    simp [Event.isFailure]

/-- One step of the loop over the working directories. -/
theorem dirLoop_cons (E : Collab W) (opts : Options) (wd : String) (rest : List String)
    (b : String) (i : Bool) (w : W) :
    dirLoop E opts (wd :: rest) b i w =
      match (initDir E opts wd "" i w).err with
      | some e =>
        { err := some e, builder := (initDir E opts wd "" i w).builder,
          installed := (initDir E opts wd "" i w).installed,
          world := (initDir E opts wd "" i w).world,
          events := (initDir E opts wd "" i w).events ++ [Event.report e] }
      | none =>
        { dirLoop E opts rest (initDir E opts wd "" i w).builder
            (initDir E opts wd "" i w).installed (initDir E opts wd "" i w).world with
          events := (initDir E opts wd "" i w).events
            ++ (dirLoop E opts rest (initDir E opts wd "" i w).builder
              (initDir E opts wd "" i w).installed (initDir E opts wd "" i w).world).events } := by
  simp only [dirLoop, withinChangedDir]

/-- The loop over the working directories returns an error exactly when one
of its collaborator calls failed. -/
theorem dirLoop_err (E : Collab W) (opts : Options) (dirs : List String) (b : String) (i : Bool)
    (w : W) :
    (dirLoop E opts dirs b i w).err.isSome = (dirLoop E opts dirs b i w).events.any Event.isFailure := by
  induction dirs generalizing b i w with
  | nil => simp [dirLoop]
  | cons wd rest ih =>
    rw [dirLoop_cons]
    have h := initDir_err E opts wd "" i w
    split
    · next e he =>
      rw [he] at h
      simp only [List.any_append, ← h]
      simp [Event.isFailure]
    · next he =>
      rw [he] at h
      simp only [List.any_append, ← h, ← ih]
      simp

/-- The loop over a list of directories followed by more directories: the
second part runs only if the first part ends without error. -/
theorem dirLoop_append (E : Collab W) (opts : Options) (pre rest : List String) (b : String)
    (i : Bool) (w : W) :
    dirLoop E opts (pre ++ rest) b i w =
      match (dirLoop E opts pre b i w).err with
      | some _ => dirLoop E opts pre b i w
      | none =>
        { dirLoop E opts rest (dirLoop E opts pre b i w).builder
            (dirLoop E opts pre b i w).installed (dirLoop E opts pre b i w).world with
          events := (dirLoop E opts pre b i w).events
            ++ (dirLoop E opts rest (dirLoop E opts pre b i w).builder
              (dirLoop E opts pre b i w).installed (dirLoop E opts pre b i w).world).events } := by
  induction pre generalizing b i w with
  | nil => simp [dirLoop]
  | cons wd pre ih =>
    rw [List.cons_append, dirLoop_cons, dirLoop_cons]
    cases he : (initDir E opts wd "" i w).err with
    | some e => simp
    | none =>
      simp only [ih]
      split <;> simp_all

theorem code_ne : ExitCodeOK ≠ ExitCodeError := by decide

/-- The three ways `init` ends. -/
theorem init_cases (E : Collab W) (opts : Options) (w : W) (motive : Run W → Prop)
    (h_resolve : ∀ e, (E.findWorkingDirs opts w).1 = Outcome.error e →
      motive
        { code := ExitCodeError, world := (E.findWorkingDirs opts w).2,
          events := [Event.resolve (Outcome.error e),
            Event.report ("Failed to find workspaces; " ++ e)] })
    (h_err : ∀ dirs l e, (E.findWorkingDirs opts w).1 = Outcome.ok dirs →
      l = dirLoop E opts dirs "" false (E.findWorkingDirs opts w).2 → l.err = some e →
      motive
        { code := ExitCodeError, world := l.world,
          events := Event.resolve (Outcome.ok dirs)
            :: ((if opts.Recursive then [Event.out bannerText] else []) ++ l.events) })
    (h_ok : ∀ dirs l, (E.findWorkingDirs opts w).1 = Outcome.ok dirs →
      l = dirLoop E opts dirs "" false (E.findWorkingDirs opts w).2 → l.err = none →
      motive
        { code := ExitCodeOK, world := l.world,
          events := Event.resolve (Outcome.ok dirs)
            :: ((if opts.Recursive then [Event.out bannerText] else []) ++ l.events
              ++ (if opts.Recursive && !l.installed then [Event.out allInstalledText]
                else [])) }) :
    motive (init E opts w) := by
  simp only [init]
  split
  · next e he => exact h_resolve e he
  · next dirs he =>
    split
    · next e hl => exact h_err dirs _ e he rfl hl
    · next hl => exact h_ok dirs _ he rfl hl

end Levels

section ExitCode

variable {W : Type}

theorem mem_lookups_of_mem {evs : List Event} {wd : String} {p : PluginConfig} {r : FindResult}
    (h : Event.find wd p r ∈ evs) : (wd, p, r) ∈ lookups evs := by
  induction evs with
  | nil => simp at h
  | cons e evs ih =>
    rcases List.mem_cons.1 h with h1 | h1
    · subst h1
      simp [lookups]
    · have h2 := ih h1
      cases e <;> simp [lookups, h2]

theorem mem_installCalls_of_mem {evs : List Event} {wd : String} {p : PluginConfig}
    {r : Outcome String} (h : Event.install wd p r ∈ evs) : (wd, p) ∈ installCalls evs := by
  induction evs with
  | nil => simp at h
  | cons e evs ih =>
    rcases List.mem_cons.1 h with h1 | h1
    · subst h1
      simp [installCalls]
    · have h2 := ih h1
      cases e <;> simp [installCalls, h2]

theorem mem_lookups_of_mem_notFound {evs : List Event} {x : String × PluginConfig}
    (h : x ∈ notFoundLookups evs) : ∃ e, (x.1, x.2, FindResult.notExist e) ∈ lookups evs := by
  induction evs with
  | nil => simp [notFoundLookups] at h
  | cons ev evs ih =>
    cases ev with
    | find wd p r =>
      cases r with
      | notExist e =>
        simp only [notFoundLookups, List.mem_cons] at h
        rcases h with h | h
        · exact ⟨e, by simp [lookups, h]⟩
        · obtain ⟨e', he'⟩ := ih h
          exact ⟨e', by simp [lookups, he']⟩
      | found path =>
        obtain ⟨e', he'⟩ := ih (by simpa [notFoundLookups] using h)
        exact ⟨e', by simp [lookups, he']⟩
      | failed e =>
        obtain ⟨e', he'⟩ := ih (by simpa [notFoundLookups] using h)
        exact ⟨e', by simp [lookups, he']⟩
    | _ =>
      obtain ⟨e', he'⟩ := ih (by simpa [notFoundLookups] using h)
      exact ⟨e', by simpa [lookups] using he'⟩

theorem notFoundLookups_eq_filter (evs : List Event) :
    notFoundLookups evs
      = ((lookups evs).filter (fun x => x.2.2.isNotExist)).map (fun x => (x.1, x.2.1)) := by
  induction evs with
  | nil => rfl
  | cons e evs ih =>
    cases e with
    | find wd p r => cases r <;> simp [notFoundLookups, lookups, FindResult.isNotExist, ih]
    | _ => simpa [notFoundLookups, lookups] using ih

end ExitCode

section Calls

variable {W : Type}

/-- The collaborator calls of the closure of lines 31-99. -/
theorem initDir_calls (E : Collab W) (opts : Options) (wd b : String) (i : Bool) (w : W) :
    installCalls (initDir E opts wd b i w).events = notFoundLookups (initDir E opts wd b i w).events
    ∧ (∀ x ∈ lookups (initDir E opts wd b i w).events, x.2.1.manual = false)
    ∧ (lookups (initDir E opts wd b i w).events).map (fun x => (x.1, x.2.1))
        <+: declared (initDir E opts wd b i w).events
    ∧ ((initDir E opts wd b i w).err = none →
        (lookups (initDir E opts wd b i w).events).map (fun x => (x.1, x.2.1))
          = declared (initDir E opts wd b i w).events
        ∧ loadedDirs (initDir E opts wd b i w).events = [wd]) := by
  refine initDir_cases E opts wd b i w
    (fun r => installCalls r.events = notFoundLookups r.events
      ∧ (∀ x ∈ lookups r.events, x.2.1.manual = false)
      ∧ (lookups r.events).map (fun x => (x.1, x.2.1)) <+: declared r.events
      ∧ (r.err = none →
          (lookups r.events).map (fun x => (x.1, x.2.1)) = declared r.events
          ∧ loadedDirs r.events = [wd])) ?_ ?_ ?_
  · intro e _
    simp [installCalls, notFoundLookups, lookups, declared]
  · intro cfg e _ hpe
    have h1 := pluginLoop_installCalls E opts wd cfg cfg.Plugins
      (if opts.Recursive then b ++ separatorText ++ workingDirText wd else b) false i
      (E.LoadConfig wd opts.Config w).2
    have h2 := pluginLoop_lookups_managed E opts wd cfg cfg.Plugins
      (if opts.Recursive then b ++ separatorText ++ workingDirText wd else b) false i
      (E.LoadConfig wd opts.Config w).2
    have h3 := pluginLoop_lookups_initial E opts wd cfg cfg.Plugins
      (if opts.Recursive then b ++ separatorText ++ workingDirText wd else b) false i
      (E.LoadConfig wd opts.Config w).2
    have h4 := pluginLoop_no_load E opts wd cfg cfg.Plugins
      (if opts.Recursive then b ++ separatorText ++ workingDirText wd else b) false i
      (E.LoadConfig wd opts.Config w).2
    refine ⟨?_, ?_, ?_, ?_⟩
    · simpa [installCalls, notFoundLookups] using h1
    · intro x hx
      exact (h2 x (by simpa [lookups] using hx)).2
    · simpa [lookups, declared, h4.1, Config.managed] using h3.1
    · intro hn
      simp [hpe] at hn
  · intro cfg r _ hr hpe
    have h1 := pluginLoop_installCalls E opts wd cfg cfg.Plugins
      (if opts.Recursive then b ++ separatorText ++ workingDirText wd else b) false i
      (E.LoadConfig wd opts.Config w).2
    have h2 := pluginLoop_lookups_managed E opts wd cfg cfg.Plugins
      (if opts.Recursive then b ++ separatorText ++ workingDirText wd else b) false i
      (E.LoadConfig wd opts.Config w).2
    have h3 := pluginLoop_lookups_initial E opts wd cfg cfg.Plugins
      (if opts.Recursive then b ++ separatorText ++ workingDirText wd else b) false i
      (E.LoadConfig wd opts.Config w).2
    have h4 := pluginLoop_no_load E opts wd cfg cfg.Plugins
      (if opts.Recursive then b ++ separatorText ++ workingDirText wd else b) false i
      (E.LoadConfig wd opts.Config w).2
    rw [← hr] at h1 h2 h3 h4
    have h5 := h3.2 hpe
    refine ⟨?_, ?_, ?_, ?_⟩
    · simpa [installCalls, notFoundLookups, installCalls_append, notFoundLookups_append,
        debug_events_installCalls, debug_events_notFoundLookups] using h1
    · intro x hx
      exact (h2 x (by simpa [lookups, lookups_append, debug_events_lookups] using hx)).2
    · simp [lookups, declared, lookups_append, declared_append, debug_events_lookups,
        debug_events_declared, h4.1, Config.managed, h5]
    · intro _
      simp [lookups, declared, lookups_append, declared_append, debug_events_lookups,
        debug_events_declared, h4.1, h4.2.1, Config.managed, h5, loadedDirs, loadedDirs_append,
        debug_events_loadedDirs]

/-- The collaborator calls of the loop over the working directories. -/
theorem dirLoop_calls (E : Collab W) (opts : Options) (dirs : List String) (b : String)
    (i : Bool) (w : W) :
    installCalls (dirLoop E opts dirs b i w).events
        = notFoundLookups (dirLoop E opts dirs b i w).events
    ∧ (∀ x ∈ lookups (dirLoop E opts dirs b i w).events, x.2.1.manual = false)
    ∧ (lookups (dirLoop E opts dirs b i w).events).map (fun x => (x.1, x.2.1))
        <+: declared (dirLoop E opts dirs b i w).events
    ∧ ((dirLoop E opts dirs b i w).err = none →
        (lookups (dirLoop E opts dirs b i w).events).map (fun x => (x.1, x.2.1))
          = declared (dirLoop E opts dirs b i w).events
        ∧ loadedDirs (dirLoop E opts dirs b i w).events = dirs) := by
  induction dirs generalizing b i w with
  | nil => simp [dirLoop, installCalls, notFoundLookups, lookups, declared, loadedDirs]
  | cons wd rest ih =>
    rw [dirLoop_cons]
    obtain ⟨h1, h2, h3, h4⟩ := initDir_calls E opts wd "" i w
    split
    · next e he =>
      refine ⟨?_, ?_, ?_, ?_⟩
      · simpa [installCalls, notFoundLookups, installCalls_append, notFoundLookups_append]
          using h1
      · intro x hx
        exact h2 x (by simpa [lookups, lookups_append] using hx)
      · simpa [lookups, declared, lookups_append, declared_append] using h3
      · intro hn
        simp at hn
    · next he =>
      obtain ⟨k1, k2, k3, k4⟩ := ih (initDir E opts wd "" i w).builder
        (initDir E opts wd "" i w).installed (initDir E opts wd "" i w).world
      obtain ⟨h5, h6⟩ := h4 he
      refine ⟨?_, ?_, ?_, ?_⟩
      · simp [installCalls_append, notFoundLookups_append, h1, k1]
      · intro x hx
        simp only [lookups_append, List.mem_append] at hx
        rcases hx with hx | hx
        · exact h2 x hx
        · exact k2 x hx
      · simp only [lookups_append, declared_append, List.map_append, h5]
        exact (List.prefix_append_right_inj _).2 k3
      · intro hn
        obtain ⟨k5, k6⟩ := k4 hn
        simp [lookups_append, declared_append, loadedDirs_append, h5, h6, k5, k6]

end Calls

section Reference

variable {W : Type}

/-- The plugin loop calls the installer for the declarations the collaborators
say are to be installed, and ends without error exactly when they say that
everything succeeded, in the world they leave behind. -/
theorem pluginLoop_spec (E : Collab W) (opts : Options) (wd : String) (cfg : Config)
    (ps : List PluginConfig) (b : String) (f i : Bool) (w : W) :
    specPlugins E wd cfg ps w
      = (installCalls (pluginLoop E opts wd cfg ps b f i w).events,
         if (pluginLoop E opts wd cfg ps b f i w).err.isSome then none
         else some (pluginLoop E opts wd cfg ps b f i w).world) := by
  refine pluginLoop_induct E opts wd cfg
    (fun ps _ _ _ w r =>
      specPlugins E wd cfg ps w
        = (installCalls r.events, if r.err.isSome then none else some r.world))
    ?_ ?_ ?_ ?_ ?_ ?_ ?_ ps b f i w
  · intro b f i w
    simp [specPlugins, installCalls]
  · intro p ps b f i w r hm ih
    simp only [specPlugins, manual_eq, hm, if_true]
    exact ih
  · intro p ps b f i w e hm he
    simp [specPlugins, manual_eq, hm, he, installCalls]
  · intro p ps b f i w path r hm he _ ih
    simp only [specPlugins, manual_eq, hm, he]
    simpa [installCalls] using ih
  · intro p ps b f i w path r hm he _ ih
    simp only [specPlugins, manual_eq, hm, he]
    simpa [installCalls] using ih
  · intro p ps b f i w e hasKey w2 ie w3 hm he hk hi
    simp only [specPlugins, manual_eq, hm, he, hk, hi]
    cases hasKey <;> simp [installCalls]
  · intro p ps b f i w e hasKey w2 path w3 r hm he hk hi ih
    simp only [specPlugins, manual_eq, hm, he, hk, hi, ih]
    cases hasKey <;> simp [installCalls, installCalls_append]

/-- The closure of lines 31-99 against the collaborators. -/
theorem initDir_spec (E : Collab W) (opts : Options) (wd b : String) (i : Bool) (w : W) :
    (∀ e, (E.LoadConfig wd opts.Config w).1 = Outcome.error e →
      installCalls (initDir E opts wd b i w).events = []
      ∧ (initDir E opts wd b i w).err.isSome = true)
    ∧ (∀ cfg, (E.LoadConfig wd opts.Config w).1 = Outcome.ok cfg →
      specPlugins E wd cfg cfg.Plugins (E.LoadConfig wd opts.Config w).2
        = (installCalls (initDir E opts wd b i w).events,
           if (initDir E opts wd b i w).err.isSome then none
           else some (initDir E opts wd b i w).world)) := by
  refine initDir_cases E opts wd b i w
    (fun r =>
      (∀ e, (E.LoadConfig wd opts.Config w).1 = Outcome.error e →
        installCalls r.events = [] ∧ r.err.isSome = true)
      ∧ (∀ cfg, (E.LoadConfig wd opts.Config w).1 = Outcome.ok cfg →
        specPlugins E wd cfg cfg.Plugins (E.LoadConfig wd opts.Config w).2
          = (installCalls r.events, if r.err.isSome then none else some r.world)))
    ?_ ?_ ?_
  · intro e he
    refine ⟨fun _ _ => ⟨rfl, rfl⟩, ?_⟩
    intro cfg hc
    rw [he] at hc
    cases hc
  · intro cfg e hc hpe
    refine ⟨?_, ?_⟩
    · intro e2 he2
      rw [hc] at he2
      cases he2
    · intro cfg2 hc2
      rw [hc] at hc2
      cases hc2
      rw [pluginLoop_spec E opts wd cfg cfg.Plugins
        (if opts.Recursive then b ++ separatorText ++ workingDirText wd else b) false i
        (E.LoadConfig wd opts.Config w).2]
      simp [hpe, installCalls]
  · intro cfg r hc hr hpe
    refine ⟨?_, ?_⟩
    · intro e2 he2
      rw [hc] at he2
      cases he2
    · intro cfg2 hc2
      rw [hc] at hc2
      cases hc2
      rw [pluginLoop_spec E opts wd cfg cfg.Plugins
        (if opts.Recursive then b ++ separatorText ++ workingDirText wd else b) false i
        (E.LoadConfig wd opts.Config w).2, ← hr]
      simp [hpe, installCalls, installCalls_append, debug_events_installCalls]

/-- The loop over the working directories against the collaborators. -/
theorem dirLoop_spec (E : Collab W) (opts : Options) (dirs : List String) (b : String)
    (i : Bool) (w : W) :
    specDirs E opts dirs w
      = (installCalls (dirLoop E opts dirs b i w).events,
         if (dirLoop E opts dirs b i w).err.isSome then none
         else some (dirLoop E opts dirs b i w).world) := by
  induction dirs generalizing b i w with
  | nil => simp [specDirs, dirLoop, installCalls]
  | cons wd rest ih =>
    rw [dirLoop_cons]
    obtain ⟨h1, h2⟩ := initDir_spec E opts wd "" i w
    simp only [specDirs]
    cases hl : (E.LoadConfig wd opts.Config w).1 with
    | error e =>
      obtain ⟨hi, he⟩ := h1 e hl
      obtain ⟨err, herr⟩ := Option.isSome_iff_exists.1 he
      simp [herr, installCalls_append, hi, installCalls]
    | ok cfg =>
      simp only
      rw [h2 cfg hl]
      cases he : (initDir E opts wd "" i w).err with
      | some err => simp [installCalls, installCalls_append]
      | none =>
        simp only [Option.isSome_none, Bool.false_eq_true, if_false]
        rw [ih (initDir E opts wd "" i w).builder (initDir E opts wd "" i w).installed]
        simp [installCalls_append]

/-- A whole run against the collaborators: the installer calls are the ones
that are due, and the exit code is `ExitCodeOK` exactly when everything
succeeded. -/
theorem init_spec_aux (E : Collab W) (opts : Options) (w : W) :
    installCalls (init E opts w).events = (specRun E opts w).1
    ∧ ((init E opts w).code = ExitCodeOK ↔ (specRun E opts w).2.isSome = true)
    ∧ ((init E opts w).code = ExitCodeOK → (specRun E opts w).2 = some (init E opts w).world) := by
  simp only [init, specRun]
  cases hr : (E.findWorkingDirs opts w).1 with
  | error e => simp [installCalls, code_ne.symm]
  | ok dirs =>
    simp only
    rw [dirLoop_spec E opts dirs "" false (E.findWorkingDirs opts w).2]
    cases he : (dirLoop E opts dirs "" false (E.findWorkingDirs opts w).2).err with
    | some err => cases opts.Recursive <;> simp [installCalls, code_ne.symm]
    | none =>
      cases opts.Recursive <;>
        cases (dirLoop E opts dirs "" false (E.findWorkingDirs opts w).2).installed <;>
        simp [installCalls, installCalls_append]

end Reference

section Claims

variable {W : Type}

/-- The collaborator calls of a whole run of `init`. -/
theorem init_calls_aux (E : Collab W) (opts : Options) (w : W) :
    installCalls (init E opts w).events = notFoundLookups (init E opts w).events
    ∧ (∀ x ∈ lookups (init E opts w).events, x.2.1.manual = false)
    ∧ (lookups (init E opts w).events).map (fun x => (x.1, x.2.1))
        <+: declared (init E opts w).events
    ∧ ((init E opts w).code = ExitCodeOK →
        (lookups (init E opts w).events).map (fun x => (x.1, x.2.1))
          = declared (init E opts w).events
        ∧ ∀ dirs, (E.findWorkingDirs opts w).1 = Outcome.ok dirs →
            loadedDirs (init E opts w).events = dirs) := by
  refine init_cases E opts w
    (fun r => installCalls r.events = notFoundLookups r.events
      ∧ (∀ x ∈ lookups r.events, x.2.1.manual = false)
      ∧ (lookups r.events).map (fun x => (x.1, x.2.1)) <+: declared r.events
      ∧ (r.code = ExitCodeOK →
          (lookups r.events).map (fun x => (x.1, x.2.1)) = declared r.events
          ∧ ∀ dirs, (E.findWorkingDirs opts w).1 = Outcome.ok dirs →
              loadedDirs r.events = dirs)) ?_ ?_ ?_
  · intro e _
    refine ⟨rfl, ?_, ?_, ?_⟩
    · simp [lookups]
    · simp [lookups, declared]
    · intro hc
      exact absurd hc.symm code_ne
  · intro dirs l e _ hl _
    obtain ⟨h1, h2, h3, _⟩ := dirLoop_calls E opts dirs "" false (E.findWorkingDirs opts w).2
    rw [← hl] at h1 h2 h3
    refine ⟨?_, ?_, ?_, ?_⟩
    · cases opts.Recursive <;> simpa [installCalls, notFoundLookups] using h1
    · intro x hx
      refine h2 x ?_
      cases hr : opts.Recursive <;> simpa [hr, lookups] using hx
    · cases opts.Recursive <;> simpa [lookups, declared] using h3
    · intro hc
      exact absurd hc.symm code_ne
  · intro dirs l hd hl hn
    obtain ⟨h1, h2, h3, h4⟩ := dirLoop_calls E opts dirs "" false (E.findWorkingDirs opts w).2
    rw [← hl] at h1 h2 h3 h4
    obtain ⟨h5, h6⟩ := h4 hn
    refine ⟨?_, ?_, ?_, ?_⟩
    · cases opts.Recursive <;> cases l.installed <;>
        simpa [installCalls, notFoundLookups, installCalls_append, notFoundLookups_append] using h1
    · intro x hx
      refine h2 x ?_
      cases hr : opts.Recursive <;> cases hi : l.installed <;>
        simpa [hr, hi, lookups, lookups_append] using hx
    · cases opts.Recursive <;> cases l.installed <;>
        simpa [lookups, declared, lookups_append, declared_append] using h3
    · intro _
      refine ⟨?_, ?_⟩
      · cases opts.Recursive <;> cases l.installed <;>
          simpa [lookups, declared, lookups_append, declared_append] using h5
      · intro dirs2 hd2
        rw [hd] at hd2
        cases hd2
        cases opts.Recursive <;> cases l.installed <;>
          simpa [loadedDirs, loadedDirs_append] using h6

/-- The exit code of `init` is `ExitCodeOK` exactly when no collaborator call
of the run failed. -/
theorem init_code_aux (E : Collab W) (opts : Options) (w : W) :
    ((init E opts w).code = ExitCodeOK ↔ (init E opts w).events.any Event.isFailure = false)
    ∧ ((init E opts w).code = ExitCodeOK ∨ (init E opts w).code = ExitCodeError) := by
  refine init_cases E opts w
    (fun r => (r.code = ExitCodeOK ↔ r.events.any Event.isFailure = false)
      ∧ (r.code = ExitCodeOK ∨ r.code = ExitCodeError)) ?_ ?_ ?_
  · intro e _
    simp [Event.isFailure, code_ne.symm]
  · intro dirs l e _ hl he
    have h := dirLoop_err E opts dirs "" false (E.findWorkingDirs opts w).2
    rw [← hl, he] at h
    have h2 : l.events.any Event.isFailure = true := by rw [← h]; rfl
    refine ⟨?_, Or.inr rfl⟩
    cases opts.Recursive <;> simp [Event.isFailure, code_ne.symm, List.any_append, h2]
  · intro dirs l _ hl hn
    have h := dirLoop_err E opts dirs "" false (E.findWorkingDirs opts w).2
    rw [← hl, hn] at h
    have h2 : l.events.any Event.isFailure = false := by rw [← h]; rfl
    refine ⟨?_, Or.inl rfl⟩
    cases opts.Recursive <;> cases l.installed <;>
      simp [Event.isFailure, List.any_append, h2]

/-- The exit code of `init` is `ExitCodeOK` exactly when every collaborator
call of the run succeeded. -/
theorem init_code_iff_aux (E : Collab W) (opts : Options) (w : W) :
    (init E opts w).code = ExitCodeOK ↔ ∀ e ∈ (init E opts w).events, e.isFailure = false := by
  rw [(init_code_aux E opts w).1]
  constructor
  · intro h e he
    cases hf : e.isFailure
    · rfl
    · have : (init E opts w).events.any Event.isFailure = true :=
        List.any_eq_true.2 ⟨e, he, hf⟩
      rw [h] at this
      cases this
  · intro h
    cases ha : (init E opts w).events.any Event.isFailure
    · rfl
    · obtain ⟨e, he, hf⟩ := List.any_eq_true.1 ha
      rw [h e he] at hf
      cases hf

/-- When the resolution and the loads succeed and every lookup finds the
binary, `init` returns `ExitCodeOK`. -/
theorem init_ok_of_found_aux (E : Collab W) (opts : Options) (w : W) :
    (∀ err, Event.resolve (Outcome.error err) ∉ (init E opts w).events) →
    (∀ wd err, Event.load wd (Outcome.error err) ∉ (init E opts w).events) →
    (∀ x ∈ lookups (init E opts w).events, ∃ path, x.2.2 = FindResult.found path) →
    (init E opts w).code = ExitCodeOK := by
  intro hr hl hf
  rw [init_code_iff_aux]
  intro e he
  cases e with
  | resolve r =>
    cases r with
    | ok a => rfl
    | error err => exact absurd he (hr err)
  | load wd r =>
    cases r with
    | ok a => rfl
    | error err => exact absurd he (hl wd err)
  | find wd p r =>
    obtain ⟨path, hp⟩ := hf _ (mem_lookups_of_mem he)
    simp only at hp
    subst hp
    rfl
  | install wd p r =>
    have hi := mem_installCalls_of_mem he
    rw [(init_calls_aux E opts w).1] at hi
    obtain ⟨e', he'⟩ := mem_lookups_of_mem_notFound hi
    obtain ⟨path, hp⟩ := hf _ he'
    simp at hp
  | _ => rfl

/-- C1 (fail-fast across directories): when the resolver returns the working
directories `pre ++ wd :: post`, the directories of `pre` are processed without
error and the processing of `wd` meets a lookup error other than "not found"
(or a config-load error, or an installer error), then `init` returns
`ExitCodeError` and the run consists of the resolution, the banner if any, the
events of `pre`, the events of `wd` and the report of the error: nothing is
invoked or written for the directories of `post`. -/
theorem init_fail_fast (E : Collab W) (opts : Options) (w : W) (pre post : List String)
    (wd : String) (lp : LoopResult W) (d : DirResult W)
    (hres : (E.findWorkingDirs opts w).1 = Outcome.ok (pre ++ wd :: post))
    (hlp : lp = dirLoop E opts pre "" false (E.findWorkingDirs opts w).2)
    (hpre : lp.err = none)
    (hd : d = initDir E opts wd "" lp.installed lp.world)
    (hfail : (∃ p e, Event.find wd p (FindResult.failed e) ∈ d.events)
      ∨ (∃ e, Event.load wd (Outcome.error e) ∈ d.events)
      ∨ (∃ p e, Event.install wd p (Outcome.error e) ∈ d.events)) :
    (init E opts w).code = ExitCodeError
    ∧ ∃ err, d.err = some err
      ∧ (init E opts w).events
          = Event.resolve (Outcome.ok (pre ++ wd :: post))
            :: ((if opts.Recursive then [Event.out bannerText] else [])
              ++ lp.events ++ d.events ++ [Event.report err])
      ∧ (init E opts w).world = d.world := by
  have hany : d.events.any Event.isFailure = true := by
    rw [List.any_eq_true]
    rcases hfail with ⟨p, e, h⟩ | ⟨e, h⟩ | ⟨p, e, h⟩
    · exact ⟨_, h, rfl⟩
    · exact ⟨_, h, rfl⟩
    · exact ⟨_, h, rfl⟩
  have hsome : d.err.isSome = true := by
    rw [hd] at hany ⊢
    rw [initDir_err]
    exact hany
  obtain ⟨err, herr⟩ := Option.isSome_iff_exists.1 hsome
  have hloop : dirLoop E opts (pre ++ wd :: post) "" false (E.findWorkingDirs opts w).2
      = { err := some err, builder := d.builder, installed := d.installed, world := d.world,
          events := lp.events ++ (d.events ++ [Event.report err]) } := by
    rw [dirLoop_append, ← hlp, hpre]
    simp only
    rw [dirLoop_cons, ← hd, herr]
  refine ⟨?_, err, herr, ?_, ?_⟩
  · simp only [init, hres, hloop]
  · simp only [init, hres, hloop, List.append_assoc]
  · simp only [init, hres, hloop]

/-- C1, witnessed on three directories of which the second holds a plugin
whose lookup fails: the third directory is never touched. -/
theorem init_fail_fast_witness :
    (init (diskCollab ["a", "b", "c"]
        [("a", { Settings := "", Plugins := [awsPlugin] }),
         ("b", { Settings := "", Plugins := [brokenPlugin] }),
         ("c", { Settings := "", Plugins := [gcpPlugin] })]) recursiveOpts ["aws"]).code
      = ExitCodeError
    ∧ loadedDirs (init (diskCollab ["a", "b", "c"]
        [("a", { Settings := "", Plugins := [awsPlugin] }),
         ("b", { Settings := "", Plugins := [brokenPlugin] }),
         ("c", { Settings := "", Plugins := [gcpPlugin] })]) recursiveOpts ["aws"]).events
      = ["a", "b"] :=
  ⟨(init_fail_fast (diskCollab ["a", "b", "c"]
        [("a", { Settings := "", Plugins := [awsPlugin] }),
         ("b", { Settings := "", Plugins := [brokenPlugin] }),
         ("c", { Settings := "", Plugins := [gcpPlugin] })]) recursiveOpts ["aws"]
      ["a"] ["c"] "b" _ _ rfl rfl rfl rfl
      (Or.inl ⟨brokenPlugin, "permission denied", by decide⟩)).1, by decide⟩

/-- C2 (exit status): `init` returns `ExitCodeOK` exactly when the
collaborators say that everything succeeds: the directory resolver succeeds
and, for every working directory in order, the config load succeeds, no lookup
of a managed declaration returns an error other than "not found" and every
installation succeeds (`specRun`); it then ends in the world they leave
behind. Otherwise it returns `ExitCodeError`, in particular when the resolver
fails. Equivalently, it returns `ExitCodeOK` exactly when no collaborator call
recorded in the run failed, and then the configuration of every working
directory was loaded, in order. It returns `ExitCodeOK` for an empty directory
list, and when the resolution and the loads succeed and every lookup finds the
binary, in either mode. -/
theorem init_exit_code (E : Collab W) (opts : Options) (w : W) :
    ((init E opts w).code = ExitCodeOK ↔ (specRun E opts w).2.isSome = true)
    ∧ ((init E opts w).code = ExitCodeOK → (specRun E opts w).2 = some (init E opts w).world)
    ∧ ((init E opts w).code ≠ ExitCodeOK → (init E opts w).code = ExitCodeError)
    ∧ (∀ e, (E.findWorkingDirs opts w).1 = Outcome.error e →
        (init E opts w).code = ExitCodeError)
    ∧ ((init E opts w).code = ExitCodeOK ↔ ∀ e ∈ (init E opts w).events, e.isFailure = false)
    ∧ (∀ dirs, (E.findWorkingDirs opts w).1 = Outcome.ok dirs →
        (init E opts w).code = ExitCodeOK → loadedDirs (init E opts w).events = dirs)
    ∧ ((E.findWorkingDirs opts w).1 = Outcome.ok [] → (init E opts w).code = ExitCodeOK)
    ∧ ((∀ err, Event.resolve (Outcome.error err) ∉ (init E opts w).events) →
        (∀ wd err, Event.load wd (Outcome.error err) ∉ (init E opts w).events) →
        (∀ x ∈ lookups (init E opts w).events, ∃ path, x.2.2 = FindResult.found path) →
        (init E opts w).code = ExitCodeOK) := by
  obtain ⟨_, s2, s3⟩ := init_spec_aux E opts w
  refine ⟨s2, s3, ?_, ?_, init_code_iff_aux E opts w, ?_, ?_, init_ok_of_found_aux E opts w⟩
  · intro hne
    rcases (init_code_aux E opts w).2 with h | h
    · exact absurd h hne
    · exact h
  · intro e he
    simp [init, he]
  · intro dirs hd hc
    exact ((init_calls_aux E opts w).2.2.2 hc).2 dirs hd
  · intro hd
    simp [init, hd, dirLoop]

/-- C2, witnessed on four runs, the exit code being derived from what the
collaborators say: a run in which one plugin is installed returns
`ExitCodeOK`; a run with a lookup that fails, a run with an installation that
fails and a run with a configuration that does not load return
`ExitCodeError`. -/
theorem init_exit_code_witness :
    (init twoDirs singleOpts []).code = ExitCodeOK
    ∧ (init oneDirBroken singleOpts []).code = ExitCodeError
    ∧ (init twoDirsBadSource recursiveOpts ["aws"]).code = ExitCodeError
    ∧ (init missingConfig recursiveOpts []).code = ExitCodeError :=
  ⟨(init_exit_code twoDirs singleOpts []).1.2 (by decide),
   (init_exit_code oneDirBroken singleOpts []).2.2.1
     (fun h => absurd ((init_exit_code oneDirBroken singleOpts []).1.1 h) (by decide)),
   (init_exit_code twoDirsBadSource recursiveOpts ["aws"]).2.2.1
     (fun h => absurd ((init_exit_code twoDirsBadSource recursiveOpts ["aws"]).1.1 h)
       (by decide)),
   (init_exit_code missingConfig recursiveOpts []).2.2.1
     (fun h => absurd ((init_exit_code missingConfig recursiveOpts []).1.1 h) (by decide))⟩

/-- C3 (installer invocations): in every run of `init` the sequence of
installer invocations is the sequence the collaborators call for (`specRun`):
in directory order and then configuration order, the declarations that are not
manually managed and whose lookup signals "not found", up to and including the
first whose installation fails, and cut at the first config load or lookup
that fails. In terms of the run itself, the installer invocations are, in
order and one each, the lookups that signalled "not found"; every lookup and
every installer invocation is for a declaration that is not manually managed;
the lookups are the managed declarations of the loaded configurations, in
order, up to the first fatal error, and all of them in a run that returns
`ExitCodeOK`, where the number of installer invocations is the number of
managed declarations whose lookup signalled "not found". -/
theorem init_installer_calls (E : Collab W) (opts : Options) (w : W) :
    installCalls (init E opts w).events = (specRun E opts w).1
    ∧ installCalls (init E opts w).events
      = ((lookups (init E opts w).events).filter (fun x => x.2.2.isNotExist)).map
          (fun x => (x.1, x.2.1))
    ∧ (∀ x ∈ lookups (init E opts w).events, x.2.1.manual = false)
    ∧ (∀ x ∈ installCalls (init E opts w).events, x.2.manual = false)
    ∧ (lookups (init E opts w).events).map (fun x => (x.1, x.2.1))
        <+: declared (init E opts w).events
    ∧ ((init E opts w).code = ExitCodeOK →
        (lookups (init E opts w).events).map (fun x => (x.1, x.2.1))
          = declared (init E opts w).events
        ∧ (installCalls (init E opts w).events).length
          = ((lookups (init E opts w).events).filter (fun x => x.2.2.isNotExist)).length) := by
  obtain ⟨h1, h2, h3, h4⟩ := init_calls_aux E opts w
  refine ⟨(init_spec_aux E opts w).1, ?_, h2, ?_, h3, ?_⟩
  · rw [h1, notFoundLookups_eq_filter]
  · intro x hx
    rw [h1] at hx
    obtain ⟨e, he⟩ := mem_lookups_of_mem_notFound hx
    exact h2 _ he
  · intro hc
    exact ⟨(h4 hc).1, by rw [h1, notFoundLookups_eq_filter, List.length_map]⟩

/-- C3, witnessed on three runs, the installer invocations being derived from
what the collaborators say. With `aws` on disk, a manually managed plugin and
two plugins to install in the first directory, and one of the two declared
again in the second: two invocations, none for `aws`, none for the manually
managed plugin, none for the second declaration of `google`. With a plugin
whose installation fails: that invocation and nothing after it. With a
directory whose configuration does not load: the invocations of the
directories before it only. -/
theorem init_installer_calls_witness :
    installCalls (init twoDirsInstall recursiveOpts ["aws"]).events
      = [("a", gcpPlugin), ("a", azurePlugin)]
    ∧ installCalls (init twoDirsBadSource recursiveOpts ["aws"]).events
      = [("a", badSourcePlugin)]
    ∧ installCalls (init missingConfig singleOpts []).events = [("a", gcpPlugin)] :=
  ⟨(init_installer_calls twoDirsInstall recursiveOpts ["aws"]).1.trans (by decide),
   (init_installer_calls twoDirsBadSource recursiveOpts ["aws"]).1.trans (by decide),
   (init_installer_calls missingConfig singleOpts []).1.trans (by decide)⟩

end Claims

section DropManual

variable {W : Type}

theorem userStream_dropManual (evs : List Event) :
    userStream (evs.map Event.dropManual) = userStream evs := by
  induction evs with
  | nil => rfl
  | cons e evs ih =>
    cases e with
    | load wd r => cases r <;> simpa [Event.dropManual, userStream] using ih
    | _ => simp [Event.dropManual, userStream, ih]

theorem debugLog_dropManual (evs : List Event) :
    debugLog (evs.map Event.dropManual) = debugLog evs := by
  induction evs with
  | nil => rfl
  | cons e evs ih =>
    cases e with
    | load wd r => cases r <;> simpa [Event.dropManual, debugLog] using ih
    | _ => simp [Event.dropManual, debugLog, ih]

theorem pluginCalls_dropManual (evs : List Event) :
    pluginCalls (evs.map Event.dropManual) = pluginCalls evs := by
  induction evs with
  | nil => rfl
  | cons e evs ih =>
    cases e with
    | load wd r => cases r <;> simpa [Event.dropManual, pluginCalls] using ih
    | _ => simp [Event.dropManual, pluginCalls, ih]

theorem map_dropManual_of_no_load (evs : List Event) (h : loadedDirs evs = []) :
    evs.map Event.dropManual = evs := by
  induction evs with
  | nil => rfl
  | cons e evs ih =>
    cases e with
    | load wd r =>
      cases r with
      | ok cfg => simp [loadedDirs] at h
      | error e => simpa [Event.dropManual] using ih (by simpa [loadedDirs] using h)
    | _ => simpa [Event.dropManual] using ih (by simpa [loadedDirs] using h)

theorem map_dropManual_debug (f : String → String) (l : List String) :
    (l.map (fun line => Event.debug (f line))).map Event.dropManual
      = l.map (fun line => Event.debug (f line)) := by
  induction l with
  | nil => rfl
  | cons a l ih => simp [Event.dropManual]

/-- The plugin loop over the managed declarations only does what the plugin
loop over all declarations does. -/
theorem pluginLoop_dropManual (E : Collab W) (hE : E.IgnoresDeclarations) (opts : Options)
    (wd : String) (cfg : Config) (ps : List PluginConfig) (b : String) (f i : Bool) (w : W) :
    pluginLoop E.dropManual opts wd cfg.dropManual (ps.filter (fun p => !p.manual)) b f i w
      = pluginLoop E opts wd cfg ps b f i w := by
  induction ps generalizing b f i w with
  | nil => rfl
  | cons p ps ih =>
    cases hm : p.manual
    · have hF := fun w => (hE wd cfg.dropManual cfg p w rfl).1
      have hS := fun w => (hE wd cfg.dropManual cfg p w rfl).2.1
      have hI := fun w => (hE wd cfg.dropManual cfg p w rfl).2.2
      have e1 : E.dropManual.FindPluginPath = E.FindPluginPath := rfl
      have e2 : E.dropManual.HasSigningKey = E.HasSigningKey := rfl
      have e3 : E.dropManual.Install = E.Install := rfl
      have e4 : E.dropManual.FgYellowln = E.FgYellowln := rfl
      simp only [List.filter, hm, Bool.not_false, pluginLoop, manual_eq, e1, e2, e3, e4, hF, hS,
        hI, ih]
    · simp only [List.filter, hm, Bool.not_true, pluginLoop, manual_eq, ih, if_true]

/-- The closure of lines 31-99 on a configuration without its manually
managed declarations. -/
theorem initDir_dropManual (E : Collab W) (hE : E.IgnoresDeclarations) (opts : Options)
    (wd b : String) (i : Bool) (w : W) :
    initDir E.dropManual opts wd b i w
      = { initDir E opts wd b i w with
          events := (initDir E opts wd b i w).events.map Event.dropManual } := by
  have e1 : E.dropManual.LoadConfig wd opts.Config w
      = dropManualLoaded (E.LoadConfig wd opts.Config w) := rfl
  simp only [initDir, e1]
  rcases hl : E.LoadConfig wd opts.Config w with ⟨r, w1⟩
  cases r with
  | error e => simp [dropManualLoaded, Event.dropManual]
  | ok cfg =>
    simp only [dropManualLoaded]
    have hp := pluginLoop_dropManual E hE opts wd cfg cfg.Plugins
      (if opts.Recursive then b ++ separatorText ++ workingDirText wd else b) false i w1
    have hcfg : cfg.dropManual.Plugins = cfg.Plugins.filter (fun p => !p.manual) := rfl
    rw [hcfg, hp]
    have hno := (pluginLoop_no_load E opts wd cfg cfg.Plugins
      (if opts.Recursive then b ++ separatorText ++ workingDirText wd else b) false i w1).2.1
    split
    · simp [DirResult.after, Event.dropManual, map_dropManual_of_no_load _ hno]
    · simp [Event.dropManual, map_dropManual_of_no_load _ hno, map_dropManual_debug]

/-- The loop over the working directories on configurations without their
manually managed declarations. -/
theorem dirLoop_dropManual (E : Collab W) (hE : E.IgnoresDeclarations) (opts : Options)
    (dirs : List String) (b : String) (i : Bool) (w : W) :
    dirLoop E.dropManual opts dirs b i w
      = { dirLoop E opts dirs b i w with
          events := (dirLoop E opts dirs b i w).events.map Event.dropManual } := by
  induction dirs generalizing b i w with
  | nil => simp [dirLoop]
  | cons wd rest ih =>
    rw [dirLoop_cons, dirLoop_cons, initDir_dropManual E hE]
    simp only
    split
    · simp [Event.dropManual]
    · simp [ih]

/-- A whole run on configurations without their manually managed
declarations. -/
theorem init_dropManual_aux (E : Collab W) (hE : E.IgnoresDeclarations) (opts : Options) (w : W) :
    init E.dropManual opts w
      = { init E opts w with events := (init E opts w).events.map Event.dropManual } := by
  have e1 : E.dropManual.findWorkingDirs = E.findWorkingDirs := rfl
  simp only [init, e1, dirLoop_dropManual E hE]
  split
  · simp [Event.dropManual]
  · split
    · cases opts.Recursive <;> simp [Event.dropManual]
    · cases opts.Recursive <;>
        cases (dirLoop E opts _ "" false (E.findWorkingDirs opts w).2).installed <;>
        simp [Event.dropManual]

/-- The plugin loop over manually managed declarations only does nothing. -/
theorem pluginLoop_all_manual (E : Collab W) (opts : Options) (wd : String) (cfg : Config)
    (ps : List PluginConfig) (h : ∀ p ∈ ps, p.manual = true) (b : String) (f i : Bool) (w : W) :
    pluginLoop E opts wd cfg ps b f i w
      = { err := none, builder := b, found := f, installed := i, world := w, events := [] } := by
  induction ps with
  | nil => rfl
  | cons p ps ih =>
    have hp : p.manual = true := h p (List.mem_cons_self _ _)
    simp only [pluginLoop, manual_eq, hp, if_true]
    exact ih (fun q hq => h q (List.mem_cons_of_mem _ hq))

theorem diskCollab_ignoresDeclarations (dirs : List String) (cfgs : List (String × Config)) :
    (diskCollab dirs cfgs).IgnoresDeclarations :=
  fun _ _ _ _ _ _ => ⟨rfl, rfl, rfl⟩

/-- C4 (manually managed plugins are invisible): for collaborators that do not
read the declaration list through the install config, deleting the manually
managed declarations from every loaded configuration leaves the run of `init`
unchanged: same exit code, same final world, same events up to the
configuration recorded at a load, hence the same user stream, the same debug
log and the same lookups, signature checks and installations in the same
order. No lookup and no installation is made for a manually managed
declaration, and in multi-directory mode a directory whose declarations are all
manually managed is reported as header plus "No plugins to install", to the
debug log only. -/
theorem init_manual_invisible (E : Collab W) (hE : E.IgnoresDeclarations) (opts : Options)
    (w : W) :
    (init E.dropManual opts w).code = (init E opts w).code
    ∧ (init E.dropManual opts w).world = (init E opts w).world
    ∧ (init E.dropManual opts w).events = (init E opts w).events.map Event.dropManual
    ∧ userStream (init E.dropManual opts w).events = userStream (init E opts w).events
    ∧ debugLog (init E.dropManual opts w).events = debugLog (init E opts w).events
    ∧ pluginCalls (init E.dropManual opts w).events = pluginCalls (init E opts w).events
    ∧ (∀ x ∈ lookups (init E opts w).events, x.2.1.manual = false)
    ∧ (∀ x ∈ installCalls (init E opts w).events, x.2.manual = false)
    ∧ (∀ (wd : String) (i : Bool) (w1 : W) (cfg : Config), opts.Recursive = true →
        (E.LoadConfig wd opts.Config w1).1 = Outcome.ok cfg →
        (∀ p ∈ cfg.Plugins, p.manual = true) →
        (initDir E opts wd "" i w1).events
          = Event.load wd (Outcome.ok cfg)
            :: (SplitLines (separatorText ++ workingDirText wd ++ noPluginsText)).map
                (fun line => Event.debug (debugTag ++ line))) := by
  have h := init_dropManual_aux E hE opts w
  obtain ⟨h1, h2, _, _⟩ := init_calls_aux E opts w
  refine ⟨by rw [h], by rw [h], by rw [h], ?_, ?_, ?_, h2, ?_, ?_⟩
  · rw [h]
    exact userStream_dropManual _
  · rw [h]
    exact debugLog_dropManual _
  · rw [h]
    exact pluginCalls_dropManual _
  · intro x hx
    rw [h1] at hx
    obtain ⟨e, he⟩ := mem_lookups_of_mem_notFound hx
    exact h2 _ he
  · intro wd i w1 cfg hr hl hm
    simp only [initDir, hl, hr, if_true, pluginLoop_all_manual E opts wd cfg cfg.Plugins hm]
    simp

/-- C4, witnessed on a run whose first directory declares one managed and one
manually managed plugin. -/
theorem init_manual_invisible_witness :
    (init twoDirs.dropManual recursiveOpts []).events
      = (init twoDirs recursiveOpts []).events.map Event.dropManual :=
  (init_manual_invisible twoDirs (diskCollab_ignoresDeclarations _ _) recursiveOpts []).2.2.1

end DropManual

section Scenarios

variable {W : Type}

/-- C5, as stated, fails: with two directories in recursive mode, the first
declaring one plugin that is already installed and the second declaring none,
the only texts written to the user stream are the banner and the final line;
the stream is not banner, header and "already installed" line of the first
directory, header and "No plugins to install" of the second, final line. -/
theorem init_two_dirs_counterexample :
    (init twoDirsPlain recursiveOpts ["aws"]).code = ExitCodeOK
    ∧ writes (init twoDirsPlain recursiveOpts ["aws"]).events = [bannerText, allInstalledText]
    ∧ userStream (init twoDirsPlain recursiveOpts ["aws"]).events
      ≠ bannerText ++ separatorText ++ workingDirText "a" ++ alreadyText "aws"
        ++ separatorText ++ workingDirText "b" ++ noPluginsText ++ allInstalledText := by
  decide

/-- C5, amended: in recursive mode over two directories, the first declaring
one managed plugin whose lookup finds the binary and the second declaring no
plugin, with every collaborator succeeding, the user stream receives the banner
and then the final line "All plugins are already installed" and nothing else;
the header and "already installed" line of the first directory and the header
and "No plugins to install" of the second go, in this order, to the debug log;
the exit code is `ExitCodeOK`. -/
theorem init_two_dirs (E : Collab W) (opts : Options) (w w1 w2 w3 w4 : W) (d1 d2 : String)
    (cfg1 cfg2 : Config) (p : PluginConfig) (path : String)
    (hrec : opts.Recursive = true)
    (hres : E.findWorkingDirs opts w = (Outcome.ok [d1, d2], w1))
    (hload1 : E.LoadConfig d1 opts.Config w1 = (Outcome.ok cfg1, w2))
    (hp1 : cfg1.Plugins = [p]) (hm : p.manual = false)
    (hfind : E.FindPluginPath d1 (NewInstallConfig cfg1 p) w2 = (FindResult.found path, w3))
    (hload2 : E.LoadConfig d2 opts.Config w3 = (Outcome.ok cfg2, w4))
    (hp2 : cfg2.Plugins = []) :
    (init E opts w).code = ExitCodeOK
    ∧ writes (init E opts w).events = [bannerText, allInstalledText]
    ∧ userStream (init E opts w).events = bannerText ++ allInstalledText
    ∧ debugLog (init E opts w).events
      = (SplitLines (separatorText ++ workingDirText d1 ++ alreadyText p.Name)).map
          (fun line => debugTag ++ line)
        ++ (SplitLines (separatorText ++ workingDirText d2 ++ noPluginsText)).map
          (fun line => debugTag ++ line) := by
  have hi : init E opts w =
      { code := ExitCodeOK, world := w4,
        events := Event.resolve (Outcome.ok [d1, d2]) :: Event.out bannerText
          :: Event.load d1 (Outcome.ok cfg1) :: Event.find d1 p (FindResult.found path)
          :: ((SplitLines (separatorText ++ workingDirText d1 ++ alreadyText p.Name)).map
                (fun line => Event.debug (debugTag ++ line))
            ++ Event.load d2 (Outcome.ok cfg2)
              :: ((SplitLines (separatorText ++ workingDirText d2 ++ noPluginsText)).map
                (fun line => Event.debug (debugTag ++ line))
              ++ [Event.out allInstalledText])) } := by
    simp [init, hres, hrec, dirLoop, withinChangedDir, initDir, hload1, hp1, pluginLoop,
      manual_eq, hm, hfind, hload2, hp2, DirResult.after]
  rw [hi]
  generalize SplitLines (separatorText ++ workingDirText d1 ++ alreadyText p.Name) = l1
  generalize SplitLines (separatorText ++ workingDirText d2 ++ noPluginsText) = l2
  refine ⟨rfl, ?_, ?_, ?_⟩
  · simp [writes, writes_append, debug_events_writes]
  · simp [userStream, userStream_append, debug_events_userStream]
  · simp [debugLog, debugLog_append, debug_events_debugLog]

/-- C5 amended, witnessed on the concrete world with the `aws` binary on
disk. -/
theorem init_two_dirs_witness :
    userStream (init twoDirsPlain recursiveOpts ["aws"]).events = bannerText ++ allInstalledText :=
  (init_two_dirs twoDirsPlain recursiveOpts ["aws"] ["aws"] ["aws"] ["aws"] ["aws"] "a" "b"
    { Settings := "", Plugins := [awsPlugin] } { Settings := "", Plugins := [] } awsPlugin "aws"
    rfl rfl rfl rfl rfl rfl rfl rfl).2.2.1

/-- C8 (single-directory install): in single-directory mode over one
directory whose configuration declares exactly the plugin `aws` with source
`x/y` and version `0.1.0`, when the lookup signals "not found", no signing key
is configured and the installer succeeds, the run is: resolution, config load,
lookup, a write of the (empty) report, the announcement, the signature check,
the warning, the installation, the confirmation, one empty debug line. So the
installer is invoked exactly once, the exit code is `ExitCodeOK`, and the user
stream holds the announcement, then the warning, then the confirmation, and
nothing else. -/
theorem init_single_install (E : Collab W) (opts : Options) (w w1 w2 w3 w4 w5 : W)
    (wd : String) (cfg : Config) (p : PluginConfig) (e path : String)
    (hrec : opts.Recursive = false)
    (hres : E.findWorkingDirs opts w = (Outcome.ok [wd], w1))
    (hload : E.LoadConfig wd opts.Config w1 = (Outcome.ok cfg, w2))
    (hp : cfg.Plugins = [p])
    (hname : p.Name = "aws") (hsrc : p.Source = "x/y") (hver : p.Version = "0.1.0")
    (hfind : E.FindPluginPath wd (NewInstallConfig cfg p) w2 = (FindResult.notExist e, w3))
    (hsig : E.HasSigningKey wd (NewInstallConfig cfg p) w3 = (false, w4))
    (hinst : E.Install wd (NewInstallConfig cfg p) w4 = (Outcome.ok path, w5)) :
    (init E opts w).code = ExitCodeOK
    ∧ (init E opts w).events
      = [Event.resolve (Outcome.ok [wd]), Event.load wd (Outcome.ok cfg),
         Event.find wd p (FindResult.notExist e), Event.out "",
         Event.out "Installing \"aws\" plugin...\n", Event.sig wd p false,
         Event.out (E.FgYellowln noSigningKeyText), Event.install wd p (Outcome.ok path),
         Event.out "Installed \"aws\" (source: x/y, version: 0.1.0)\n",
         Event.debug debugTag]
    ∧ installCalls (init E opts w).events = [(wd, p)]
    ∧ userStream (init E opts w).events
      = "Installing \"aws\" plugin...\n" ++ E.FgYellowln noSigningKeyText
        ++ "Installed \"aws\" (source: x/y, version: 0.1.0)\n" := by
  have hm : p.manual = false := by
    simp [PluginConfig.manual, NewInstallConfig, InstallConfig.ManuallyInstalled, hsrc, hver]
  have t1 : installingText p.Name = "Installing \"aws\" plugin...\n" := by
    rw [hname]; decide
  have t2 : installedText p = "Installed \"aws\" (source: x/y, version: 0.1.0)\n" := by
    simp only [installedText, hname, hsrc, hver]; decide
  have t3 : SplitLines "" = [""] := by decide
  have hi : (init E opts w).code = ExitCodeOK ∧ (init E opts w).events
      = [Event.resolve (Outcome.ok [wd]), Event.load wd (Outcome.ok cfg),
         Event.find wd p (FindResult.notExist e), Event.out "",
         Event.out "Installing \"aws\" plugin...\n", Event.sig wd p false,
         Event.out (E.FgYellowln noSigningKeyText), Event.install wd p (Outcome.ok path),
         Event.out "Installed \"aws\" (source: x/y, version: 0.1.0)\n",
         Event.debug debugTag] := by
    simp [init, hres, hrec, dirLoop, withinChangedDir, initDir, hload, hp, pluginLoop,
      manual_eq, hm, hfind, hsig, hinst, DirResult.after, t1, t2, t3]
  refine ⟨hi.1, hi.2, ?_, ?_⟩
  · rw [hi.2]
    rfl
  · rw [hi.2]
    simp [userStream, String.append_assoc]

/-- C8, witnessed on the concrete world with an empty disk. -/
theorem init_single_install_witness :
    userStream (init oneDir singleOpts []).events
      = "Installing \"aws\" plugin...\n" ++ oneDir.FgYellowln noSigningKeyText
        ++ "Installed \"aws\" (source: x/y, version: 0.1.0)\n" :=
  (init_single_install oneDir singleOpts [] [] [] [] [] ["aws"] "."
    { Settings := "", Plugins := [awsPlugin] } awsPlugin "file does not exist" "aws"
    rfl rfl rfl rfl rfl rfl rfl rfl rfl rfl).2.2.2

end Scenarios

section Debug

variable {W : Type}

set_option maxRecDepth 100000

theorem alreadyLines_append (a b : List Event) :
    alreadyLines (a ++ b) = alreadyLines a ++ alreadyLines b := by
  simp [alreadyLines, foundLookups_append]

/-- C6, as stated, fails: for a directory whose one managed plugin is already
installed, processed without error under the same collaborators, the debug log
of multi-directory mode holds the line of the plugin and the debug log of
single-directory mode is one empty line. -/
theorem initDir_debug_counterexample :
    (initDir twoDirsPlain recursiveOpts "a" "" false ["aws"]).err = none
    ∧ (initDir twoDirsPlain singleOpts "a" "" false ["aws"]).err = none
    ∧ debugTag ++ "Plugin \"aws\" is already installed"
        ∈ debugLog (initDir twoDirsPlain recursiveOpts "a" "" false ["aws"]).events
    ∧ debugTag ++ "Plugin \"aws\" is already installed"
        ∉ debugLog (initDir twoDirsPlain singleOpts "a" "" false ["aws"]).events
    ∧ debugLog (initDir twoDirsPlain singleOpts "a" "" false ["aws"]).events = [debugTag] := by
  decide

/-- C6, amended: the debug narrative depends on the mode. For a directory
processed without error, in multi-directory mode the debug log receives every
line of the report (the header lines, one "already installed" line per lookup
that found the binary, and "No plugins to install" when no lookup was made),
each behind the debug tag; in single-directory mode the report stays empty and
the debug log receives one empty line. -/
theorem initDir_debugLog (E : Collab W) (opts : Options) (wd : String) (i : Bool) (w : W)
    (hok : (initDir E opts wd "" i w).err = none) :
    (opts.Recursive = true →
      debugLog (initDir E opts wd "" i w).events
        = (SplitLines (separatorText ++ workingDirText wd
              ++ joinText (alreadyLines (initDir E opts wd "" i w).events)
              ++ (if (lookups (initDir E opts wd "" i w).events).isEmpty then noPluginsText
                  else ""))).map (fun line => debugTag ++ line))
    ∧ (opts.Recursive = false →
      (initDir E opts wd "" i w).builder = ""
      ∧ debugLog (initDir E opts wd "" i w).events = [debugTag]) := by
  revert hok
  refine initDir_cases E opts wd "" i w
    (fun r => r.err = none →
      (opts.Recursive = true →
        debugLog r.events
          = (SplitLines (separatorText ++ workingDirText wd ++ joinText (alreadyLines r.events)
              ++ (if (lookups r.events).isEmpty then noPluginsText else ""))).map
              (fun line => debugTag ++ line))
      ∧ (opts.Recursive = false → r.builder = "" ∧ debugLog r.events = [debugTag])) ?_ ?_ ?_
  · intro e _ hn
    simp at hn
  · intro cfg e _ hpe hn
    rw [after_err, hpe] at hn
    cases hn
  · intro cfg r _ hr _ _
    have hno := pluginLoop_no_load E opts wd cfg cfg.Plugins
      (if opts.Recursive then "" ++ separatorText ++ workingDirText wd else "") false i
      (E.LoadConfig wd opts.Config w).2
    have hf := pluginLoop_found E opts wd cfg cfg.Plugins
      (if opts.Recursive then "" ++ separatorText ++ workingDirText wd else "") false i
      (E.LoadConfig wd opts.Config w).2
    rw [← hr] at hno hf
    have ha : alreadyLines ([Event.load wd (Outcome.ok cfg)] ++ r.events
        ++ (SplitLines (if opts.Recursive && !r.found then r.builder ++ noPluginsText
              else r.builder)).map (fun line => Event.debug (debugTag ++ line)))
        = alreadyLines r.events := by
      simp [alreadyLines, foundLookups, foundLookups_append, debug_events_foundLookups]
    have hl : lookups ([Event.load wd (Outcome.ok cfg)] ++ r.events
        ++ (SplitLines (if opts.Recursive && !r.found then r.builder ++ noPluginsText
              else r.builder)).map (fun line => Event.debug (debugTag ++ line)))
        = lookups r.events := by
      simp [lookups, lookups_append, debug_events_lookups]
    have hd : debugLog ([Event.load wd (Outcome.ok cfg)] ++ r.events
        ++ (SplitLines (if opts.Recursive && !r.found then r.builder ++ noPluginsText
              else r.builder)).map (fun line => Event.debug (debugTag ++ line)))
        = (SplitLines (if opts.Recursive && !r.found then r.builder ++ noPluginsText
              else r.builder)).map (fun line => debugTag ++ line) := by
      rw [debugLog_append, debugLog_append, hno.2.2, debug_events_debugLog]
      rfl
    constructor
    · intro hrec
      have hb := pluginLoop_builder_rec E opts wd cfg hrec cfg.Plugins
        (if opts.Recursive then "" ++ separatorText ++ workingDirText wd else "") false i
        (E.LoadConfig wd opts.Config w).2
      rw [← hr] at hb
      simp only [ha, hl, hd]
      congr 1
      rw [hb, hf]
      cases (lookups r.events).isEmpty <;> simp [hrec, String.append_assoc]
    · intro hsingle
      have hb := pluginLoop_builder_single E opts wd cfg hsingle cfg.Plugins
        (if opts.Recursive then "" ++ separatorText ++ workingDirText wd else "") false i
        (E.LoadConfig wd opts.Config w).2
      rw [← hr] at hb
      have t3 : SplitLines "" = [""] := by decide
      simp only [hd]
      simp [hsingle, hb, t3]

/-- C6 amended, witnessed in both modes: on a directory that declares nothing
in single-directory mode, and on a directory whose plugin is already installed
in multi-directory mode. -/
theorem initDir_debugLog_witness :
    debugLog (initDir twoDirsPlain singleOpts "b" "" false []).events = [debugTag]
    ∧ debugLog (initDir twoDirsPlain recursiveOpts "a" "" false ["aws"]).events
      = ["[DEBUG]   ====================================================",
         "[DEBUG]   working directory: a",
         "[DEBUG]   ",
         "[DEBUG]   Plugin \"aws\" is already installed",
         "[DEBUG]   "] :=
  ⟨((initDir_debugLog twoDirsPlain singleOpts "b" false [] rfl).2 rfl).2,
   ((initDir_debugLog twoDirsPlain recursiveOpts "a" false ["aws"] rfl).1 rfl).trans
     (by decide)⟩

/-- C7, evaluated: in multi-directory mode, for a directory whose one plugin
is installed by the run, the buffered report (the header) is written to the
user stream and is also sent, line by line, to the debug log. -/
theorem init_report_to_both :
    Event.out (separatorText ++ workingDirText ".") ∈ (init oneDir recursiveOpts []).events
    ∧ separatorText ++ workingDirText "." ≠ ""
    ∧ debugLog (init oneDir recursiveOpts []).events
      = (SplitLines (separatorText ++ workingDirText ".")).map (fun line => debugTag ++ line)
    ∧ (init oneDir recursiveOpts []).code = ExitCodeOK := by
  decide

/-- C10, evaluated: in multi-directory mode, for a directory with one plugin
already installed followed by two plugins that need installing, the header and
the "already installed" line are written to the user stream twice, once before
each installation. -/
theorem init_report_twice :
    (writes (init oneDirThree recursiveOpts ["aws"]).events).count
        (separatorText ++ workingDirText "a" ++ alreadyText "aws") = 2
    ∧ (init oneDirThree recursiveOpts ["aws"]).code = ExitCodeOK
    ∧ userStream (init oneDirThree recursiveOpts ["aws"]).events
      = bannerText
        ++ (separatorText ++ workingDirText "a" ++ alreadyText "aws")
        ++ installingText "google" ++ (noSigningKeyText ++ "\n") ++ installedText gcpPlugin
        ++ (separatorText ++ workingDirText "a" ++ alreadyText "aws")
        ++ installingText "azurerm" ++ (noSigningKeyText ++ "\n")
        ++ installedText azurePlugin := by
  decide

end Debug

section SingleMode

variable {W : Type}

theorem nextAfterFound_append (a b : List Event)
    (h : ∀ x ∈ nextAfterFound a, x.2.isSome = true) :
    nextAfterFound (a ++ b) = nextAfterFound a ++ nextAfterFound b := by
  induction a with
  | nil => rfl
  | cons e a ih =>
    cases e with
    | find wd p r =>
      cases r with
      | found path =>
        simp only [nextAfterFound, List.mem_cons, forall_eq_or_imp] at h
        cases a with
        | nil => simp at h
        | cons e2 a2 =>
          have := ih h.2
          simp only [List.cons_append] at this
          simp [nextAfterFound, this]
      | notExist e => simpa [nextAfterFound] using ih (by simpa [nextAfterFound] using h)
      | failed e => simpa [nextAfterFound] using ih (by simpa [nextAfterFound] using h)
    | _ => simpa [nextAfterFound] using ih (by simpa [nextAfterFound] using h)

theorem nextAfterFound_append_ok (a b : List Event)
    (ha : ∀ x ∈ nextAfterFound a, x.2 = some (Event.out (alreadyText x.1.Name)))
    (hb : ∀ x ∈ nextAfterFound b, x.2 = some (Event.out (alreadyText x.1.Name))) :
    ∀ x ∈ nextAfterFound (a ++ b), x.2 = some (Event.out (alreadyText x.1.Name)) := by
  rw [nextAfterFound_append a b (fun x hx => by rw [ha x hx]; rfl)]
  intro x hx
  rcases List.mem_append.1 hx with h | h
  · exact ha x h
  · exact hb x h

theorem debug_events_nextAfterFound (f : String → String) (l : List String) :
    nextAfterFound (l.map (fun line => Event.debug (f line))) = [] := by
  induction l with
  | nil => rfl
  | cons a l ih => simpa [nextAfterFound] using ih

/-- In single-directory mode, the event right after a lookup of the plugin
loop that found the binary is the write of the "already installed" line. -/
theorem pluginLoop_single_next (E : Collab W) (opts : Options) (wd : String) (cfg : Config)
    (hs : opts.Recursive = false) (ps : List PluginConfig) (b : String) (f i : Bool) (w : W) :
    ∀ x ∈ nextAfterFound (pluginLoop E opts wd cfg ps b f i w).events,
      x.2 = some (Event.out (alreadyText x.1.Name)) := by
  refine pluginLoop_induct E opts wd cfg
    (fun _ _ _ _ _ r =>
      ∀ x ∈ nextAfterFound r.events, x.2 = some (Event.out (alreadyText x.1.Name)))
    ?_ ?_ ?_ ?_ ?_ ?_ ?_ ps b f i w
  · intros; simp [nextAfterFound]
  · intro p ps b f i w r _ ih
    exact ih
  · intros; simp [nextAfterFound]
  · intro p ps b f i w path r _ _ hr _
    simp [hs] at hr
  · intro p ps b f i w path r _ _ _ ih
    simpa [nextAfterFound] using ih
  · intro p ps b f i w e hasKey w2 ie w3 _ _ _ _
    cases hasKey <;> simp [nextAfterFound]
  · intro p ps b f i w e hasKey w2 path w3 r _ _ _ _ ih
    cases hasKey <;> simpa [nextAfterFound] using ih

theorem initDir_single_next (E : Collab W) (opts : Options) (hs : opts.Recursive = false)
    (wd b : String) (i : Bool) (w : W) :
    ∀ x ∈ nextAfterFound (initDir E opts wd b i w).events,
      x.2 = some (Event.out (alreadyText x.1.Name)) := by
  refine initDir_cases E opts wd b i w
    (fun r => ∀ x ∈ nextAfterFound r.events, x.2 = some (Event.out (alreadyText x.1.Name)))
    ?_ ?_ ?_
  · intro e _
    simp [nextAfterFound]
  · intro cfg e _ _
    have h := pluginLoop_single_next E opts wd cfg hs cfg.Plugins
      (if opts.Recursive then b ++ separatorText ++ workingDirText wd else b) false i
      (E.LoadConfig wd opts.Config w).2
    simpa [nextAfterFound] using h
  · intro cfg r _ hr _
    have h := pluginLoop_single_next E opts wd cfg hs cfg.Plugins
      (if opts.Recursive then b ++ separatorText ++ workingDirText wd else b) false i
      (E.LoadConfig wd opts.Config w).2
    rw [← hr] at h
    rw [List.append_assoc]
    refine nextAfterFound_append_ok _ _ (by simp [nextAfterFound]) ?_
    refine nextAfterFound_append_ok _ _ h ?_
    simp [debug_events_nextAfterFound]

theorem dirLoop_single_next (E : Collab W) (opts : Options) (hs : opts.Recursive = false)
    (dirs : List String) (b : String) (i : Bool) (w : W) :
    ∀ x ∈ nextAfterFound (dirLoop E opts dirs b i w).events,
      x.2 = some (Event.out (alreadyText x.1.Name)) := by
  induction dirs generalizing b i w with
  | nil => simp [dirLoop, nextAfterFound]
  | cons wd rest ih =>
    rw [dirLoop_cons]
    have h := initDir_single_next E opts hs wd "" i w
    split
    · exact nextAfterFound_append_ok _ _ h (by simp [nextAfterFound])
    · exact nextAfterFound_append_ok _ _ h (ih _ _ _)

theorem alreadyLines_of_found (evs : List Event)
    (h : ∀ x ∈ lookups evs, ∃ path, x.2.2 = FindResult.found path) :
    alreadyLines evs = (lookups evs).map (fun x => alreadyText x.2.1.Name) := by
  induction evs with
  | nil => rfl
  | cons e evs ih =>
    cases e with
    | find wd p r =>
      simp only [lookups, List.mem_cons, forall_eq_or_imp] at h
      obtain ⟨⟨path, hp⟩, h2⟩ := h
      subst hp
      have := ih h2
      simp only [alreadyLines] at this
      simp [alreadyLines, foundLookups, lookups, this]
    | _ =>
      have := ih (by simpa [lookups] using h)
      simp only [alreadyLines] at this
      simpa [alreadyLines, foundLookups, lookups] using this

/-- In single-directory mode, when every lookup of the plugin loop finds the
binary, the loop writes the "already installed" lines and nothing else. -/
theorem pluginLoop_single_stream (E : Collab W) (opts : Options) (wd : String) (cfg : Config)
    (hs : opts.Recursive = false) (ps : List PluginConfig) (b : String) (f i : Bool) (w : W) :
    (∀ x ∈ lookups (pluginLoop E opts wd cfg ps b f i w).events,
        ∃ path, x.2.2 = FindResult.found path) →
      userStream (pluginLoop E opts wd cfg ps b f i w).events
        = joinText (alreadyLines (pluginLoop E opts wd cfg ps b f i w).events) := by
  refine pluginLoop_induct E opts wd cfg
    (fun _ _ _ _ _ r =>
      (∀ x ∈ lookups r.events, ∃ path, x.2.2 = FindResult.found path) →
        userStream r.events = joinText (alreadyLines r.events))
    ?_ ?_ ?_ ?_ ?_ ?_ ?_ ps b f i w
  · intro _ _ _ _ _; rfl
  · intro p ps b f i w r _ ih
    exact ih
  · intro p ps b f i w e _ _ h
    simp [lookups] at h
  · intro p ps b f i w path r _ _ hr _
    simp [hs] at hr
  · intro p ps b f i w path r _ _ _ ih h
    have := ih (fun x hx => h x (by simp [lookups, hx]))
    simp [userStream, alreadyLines, foundLookups, joinText, this]
  · intro p ps b f i w e hasKey w2 ie w3 _ _ _ _ h
    simp [lookups] at h
  · intro p ps b f i w e hasKey w2 path w3 r _ _ _ _ _ h
    simp [lookups] at h

theorem initDir_single_stream (E : Collab W) (opts : Options) (hs : opts.Recursive = false)
    (wd : String) (i : Bool) (w : W) :
    (∀ x ∈ lookups (initDir E opts wd "" i w).events, ∃ path, x.2.2 = FindResult.found path) →
      userStream (initDir E opts wd "" i w).events
        = joinText (alreadyLines (initDir E opts wd "" i w).events) := by
  refine initDir_cases E opts wd "" i w
    (fun r => (∀ x ∈ lookups r.events, ∃ path, x.2.2 = FindResult.found path) →
      userStream r.events = joinText (alreadyLines r.events)) ?_ ?_ ?_
  · intro e _ _
    simp [hs, userStream, alreadyLines, foundLookups, joinText]
  · intro cfg e _ _ h
    have := pluginLoop_single_stream E opts wd cfg hs cfg.Plugins
      (if opts.Recursive then "" ++ separatorText ++ workingDirText wd else "") false i
      (E.LoadConfig wd opts.Config w).2 (fun x hx => h x (by simpa [lookups] using hx))
    simpa [userStream, alreadyLines, foundLookups] using this
  · intro cfg r _ hr _ h
    have := pluginLoop_single_stream E opts wd cfg hs cfg.Plugins
      (if opts.Recursive then "" ++ separatorText ++ workingDirText wd else "") false i
      (E.LoadConfig wd opts.Config w).2
    rw [← hr] at this
    have h2 := this (fun x hx => h x (by simp [lookups, lookups_append, hx]))
    simp [userStream, userStream_append, debug_events_userStream, alreadyLines, foundLookups,
      foundLookups_append, debug_events_foundLookups, h2]

theorem dirLoop_single_stream (E : Collab W) (opts : Options) (hs : opts.Recursive = false)
    (dirs : List String) (b : String) (i : Bool) (w : W) :
    (∀ x ∈ lookups (dirLoop E opts dirs b i w).events, ∃ path, x.2.2 = FindResult.found path) →
      userStream (dirLoop E opts dirs b i w).events
        = joinText (alreadyLines (dirLoop E opts dirs b i w).events) := by
  induction dirs generalizing b i w with
  | nil => intro _; rfl
  | cons wd rest ih =>
    rw [dirLoop_cons]
    have h := initDir_single_stream E opts hs wd i w
    split
    · intro hf
      have h2 := h (fun x hx => hf x (by simp [lookups_append, hx]))
      simp [userStream_append, h2, userStream, alreadyLines, foundLookups,
        foundLookups_append]
    · intro hf
      have h2 := h (fun x hx => hf x (by simp [lookups_append, hx]))
      have h3 := ih (initDir E opts wd "" i w).builder (initDir E opts wd "" i w).installed
        (initDir E opts wd "" i w).world (fun x hx => hf x (by simp [lookups_append, hx]))
      simp [userStream_append, alreadyLines_append, joinText_append, h2, h3]

theorem init_single_stream_aux (E : Collab W) (opts : Options) (hs : opts.Recursive = false)
    (w : W) :
    (∀ x ∈ lookups (init E opts w).events, ∃ path, x.2.2 = FindResult.found path) →
      userStream (init E opts w).events = joinText (alreadyLines (init E opts w).events) := by
  refine init_cases E opts w
    (fun r => (∀ x ∈ lookups r.events, ∃ path, x.2.2 = FindResult.found path) →
      userStream r.events = joinText (alreadyLines r.events)) ?_ ?_ ?_
  · intro e _ _
    rfl
  · intro dirs l e _ hl _ hf
    have h := dirLoop_single_stream E opts hs dirs "" false (E.findWorkingDirs opts w).2
    rw [← hl] at h
    have h2 := h (fun x hx => hf x (by simp [hs, lookups, hx]))
    simpa [hs, userStream, alreadyLines, foundLookups] using h2
  · intro dirs l _ hl _ hf
    have h := dirLoop_single_stream E opts hs dirs "" false (E.findWorkingDirs opts w).2
    rw [← hl] at h
    have h2 := h (fun x hx => hf x (by simp [hs, lookups, hx]))
    simpa [hs, userStream, alreadyLines, foundLookups] using h2

theorem init_single_next_aux (E : Collab W) (opts : Options) (hs : opts.Recursive = false)
    (w : W) :
    ∀ x ∈ nextAfterFound (init E opts w).events,
      x.2 = some (Event.out (alreadyText x.1.Name)) := by
  refine init_cases E opts w
    (fun r => ∀ x ∈ nextAfterFound r.events, x.2 = some (Event.out (alreadyText x.1.Name)))
    ?_ ?_ ?_
  · intro e _
    simp [nextAfterFound]
  · intro dirs l e _ hl _
    have h := dirLoop_single_next E opts hs dirs "" false (E.findWorkingDirs opts w).2
    rw [← hl] at h
    simpa [hs, nextAfterFound] using h
  · intro dirs l _ hl _
    have h := dirLoop_single_next E opts hs dirs "" false (E.findWorkingDirs opts w).2
    rw [← hl] at h
    simpa [hs, nextAfterFound] using h

theorem initDir_single_builder (E : Collab W) (opts : Options) (hs : opts.Recursive = false)
    (wd b : String) (i : Bool) (w : W) : (initDir E opts wd b i w).builder = b := by
  refine initDir_cases E opts wd b i w (fun r => r.builder = b) ?_ ?_ ?_
  · intro e _
    simp [hs]
  · intro cfg e _ _
    have h := pluginLoop_builder_single E opts wd cfg hs cfg.Plugins
      (if opts.Recursive then b ++ separatorText ++ workingDirText wd else b) false i
      (E.LoadConfig wd opts.Config w).2
    simpa [hs] using h
  · intro cfg r _ hr _
    have h := pluginLoop_builder_single E opts wd cfg hs cfg.Plugins
      (if opts.Recursive then b ++ separatorText ++ workingDirText wd else b) false i
      (E.LoadConfig wd opts.Config w).2
    rw [← hr] at h
    simpa [hs] using h

/-- C9 (single-directory mode): with `opts.Recursive` false, the event right
after every lookup that finds the binary is the write of
`Plugin "<name>" is already installed` to the user stream; processing a
directory leaves the report buffer as it was (nothing is appended); and in a
run in which every collaborator call succeeds and every lookup finds the
binary, the user stream is exactly the "already installed" lines of the managed
declarations of the loaded configurations, in directory and configuration
order (so it is empty when there is no managed declaration). -/
theorem init_single_mode (E : Collab W) (opts : Options) (w : W)
    (hs : opts.Recursive = false) :
    (∀ x ∈ nextAfterFound (init E opts w).events,
        x.2 = some (Event.out (alreadyText x.1.Name)))
    ∧ (∀ (wd b : String) (i : Bool) (w1 : W), (initDir E opts wd b i w1).builder = b)
    ∧ ((∀ e ∈ (init E opts w).events, e.isFailure = false) →
        (∀ x ∈ lookups (init E opts w).events, x.2.2.isFound = true) →
        userStream (init E opts w).events
          = joinText ((declared (init E opts w).events).map (fun x => alreadyText x.2.Name))
        ∧ (declared (init E opts w).events = [] → userStream (init E opts w).events = "")) := by
  refine ⟨init_single_next_aux E opts hs w, initDir_single_builder E opts hs, ?_⟩
  intro hok hfound
  have hf : ∀ x ∈ lookups (init E opts w).events, ∃ path, x.2.2 = FindResult.found path := by
    intro x hx
    have := hfound x hx
    cases hr : x.2.2 with
    | found path => exact ⟨path, rfl⟩
    | notExist e => simp [hr, FindResult.isFound] at this
    | failed e => simp [hr, FindResult.isFound] at this
  have hcode : (init E opts w).code = ExitCodeOK := (init_code_iff_aux E opts w).2 hok
  have hdecl := ((init_calls_aux E opts w).2.2.2 hcode).1
  have hstream : userStream (init E opts w).events
      = joinText ((declared (init E opts w).events).map (fun x => alreadyText x.2.Name)) := by
    rw [init_single_stream_aux E opts hs w hf, alreadyLines_of_found _ hf, ← hdecl,
      List.map_map]
    rfl
  refine ⟨hstream, ?_⟩
  intro hd
  rw [hstream, hd]
  rfl

/-- C9, witnessed on a single-directory-mode run over a directory with one
plugin already installed and one manually managed plugin. -/
theorem init_single_mode_witness :
    userStream (init twoDirs singleOpts ["aws"]).events
      = "Plugin \"aws\" is already installed\n" :=
  ((init_single_mode twoDirs singleOpts ["aws"] rfl).2.2 (by decide) (by decide)).1.trans
    (by decide)

end SingleMode

end Cmd
